import Mathlib

/-!
The Redis response cache of mosdns (`dispatcher/pkg/cache/redis_cache`).

A shallow embedding of `redis_cache.go`: the record codec
(`packRedisData`, `unpackRedisValue`) and the two cache operations
(`RedisCache.Get`, `RedisCache.Store`).

Modelling decisions.

* A byte is a `Fin 256`, a byte slice a `List Byte`.
* `int64`/`uint64` are `Int`/`Nat` with explicit reduction modulo `2^64`.
* A `time.Time` is an instant on one time line, kept as the number of
  nanoseconds since the Unix epoch.  Locations and monotonic clock readings
  are not kept: `Before`, `After`, `Sub` and `Unix` do not depend on the
  location, and all instants are compared on the same line.
* The DNS wire codec (`github.com/miekg/dns`) and the Redis client
  (`github.com/go-redis/redis/v8`) are external libraries; they are parameters
  (`WireCodec`, `Client`).  `time.Now()` is a parameter too: every reading of
  the clock is an explicit argument.
* A Go multi-value return with named results is a structure with one field
  per result, so that "nil message" and "zero timestamps" can be stated.
-/

namespace redis_cache

/-! ## Bytes and fixed-width integers -/

abbrev Byte := Fin 256

/-- Go conversion `byte(x)` of an unsigned integer: the low eight bits. -/
def byte (x : Nat) : Byte := ⟨x % 256, Nat.mod_lt x (by decide)⟩

/-- Go conversion `uint64(x)` of an `int64` value (two's complement). -/
def uint64 (x : Int) : Nat := (x % 18446744073709551616).toNat

/-- Go conversion `int64(u)` of a `uint64` value (two's complement). -/
def int64 (u : Nat) : Int :=
  if u % 18446744073709551616 < 9223372036854775808 then ((u % 18446744073709551616 : Nat) : Int)
  else ((u % 18446744073709551616 : Nat) : Int) - 18446744073709551616

/-- Reduction of a mathematical integer into the `int64` range, as
fixed-width arithmetic does. -/
def wrapInt64 (x : Int) : Int :=
  (x + 9223372036854775808) % 18446744073709551616 - 9223372036854775808

/-- The eight bytes that `binary.BigEndian.PutUint64` writes for `v`:
`byte(v >> 56), byte(v >> 48), ..., byte(v)`. -/
def be64 (v : Nat) : List Byte :=
  [byte (v / 72057594037927936), byte (v / 281474976710656), byte (v / 1099511627776),
   byte (v / 4294967296), byte (v / 16777216), byte (v / 65536), byte (v / 256), byte v]

/-- Go `binary.BigEndian.PutUint64(b, v)`: overwrites `b[0..7]`; the rest of
`b` is untouched.  (Go panics when `len(b) < 8`; every caller here passes an
eight-byte slice.) -/
def BigEndian.PutUint64 (b : List Byte) (v : Nat) : List Byte :=
  be64 v ++ b.drop 8

/-- Go `binary.BigEndian.Uint64(b)`:
`uint64(b[7]) | uint64(b[6])<<8 | ... | uint64(b[0])<<56`.  (Go panics when
`len(b) < 8`; every caller here passes an eight-byte slice.) -/
def BigEndian.Uint64 (b : List Byte) : Nat :=
  (b.getD 7 0).val + (b.getD 6 0).val * 256 + (b.getD 5 0).val * 65536
    + (b.getD 4 0).val * 16777216 + (b.getD 3 0).val * 4294967296
    + (b.getD 2 0).val * 1099511627776 + (b.getD 1 0).val * 281474976710656
    + (b.getD 0 0).val * 72057594037927936

/-- Go slice expression `b[lo:hi]`, read as a value. -/
def slice (b : List Byte) (lo hi : Nat) : List Byte := (b.drop lo).take (hi - lo)

/-- The buffer `b` after the sub-slice `b[lo:hi]` has been overwritten in
place with `w` (a Go sub-slice shares its backing array). -/
def writeSlice (b : List Byte) (lo hi : Nat) (w : List Byte) : List Byte :=
  b.take lo ++ w ++ b.drop hi

/-- Go builtin `copy(dst, src)`: copies `min(len(dst), len(src))` bytes to the
front of `dst`; returns `dst` after the copy. -/
def copy (dst src : List Byte) : List Byte :=
  src.take dst.length ++ dst.drop src.length

/-! ## Time -/

/-- An instant: nanoseconds since January 1, 1970 UTC. -/
structure Time where
  ns : Int
deriving DecidableEq, Repr

/-- Go `time.Time{}`: January 1, year 1, 00:00:00 UTC. -/
def Time.zero : Time := ⟨-62135596800 * 1000000000⟩

/-- Go `t.Unix()`: whole seconds since the epoch (rounded down), an `int64`. -/
def Time.Unix (t : Time) : Int := wrapInt64 (t.ns / 1000000000)

/-- Go `t.Before(u)`. -/
def Time.Before (t u : Time) : Bool := decide (t.ns < u.ns)

/-- Go `t.After(u)`. -/
def Time.After (t u : Time) : Bool := decide (u.ns < t.ns)

/-- Go `t.Sub(u)`: the duration `t - u` in nanoseconds, an `int64`; saturates
at the largest and smallest `Duration`. -/
def Time.Sub (t u : Time) : Int :=
  if t.ns - u.ns > 9223372036854775807 then 9223372036854775807
  else if t.ns - u.ns < -9223372036854775808 then -9223372036854775808
  else t.ns - u.ns

/-- Go `time.Unix(sec, nsec)`. -/
def time.Unix (sec nsec : Int) : Time := ⟨sec * 1000000000 + nsec⟩

/-! ## Errors and external collaborators -/

/-- An error reported by the Redis client. `Nil` is `redis.Nil` (no such
key); `other` is any other error. -/
inductive RedisErr where
  | Nil
  | other (msg : String)
deriving DecidableEq, Repr

/-- An error reported by the DNS wire codec. -/
structure WireErr where
  msg : String
deriving DecidableEq, Repr

/-- Go `error` values that flow through this package. -/
inductive Error where
  /-- The error `errors.New("b is too short")`. -/
  | tooShort
  /-- An error of the DNS wire codec. -/
  | wire (e : WireErr)
  /-- An error of the Redis client. -/
  | redis (e : RedisErr)
  /-- The error `fmt.Errorf("failed to unpack redis data: %w", err)`. -/
  | failedToUnpack (err : Error)
deriving DecidableEq, Repr

/-- Go `errors.Unwrap`. -/
def Error.Unwrap : Error → Option Error
  | .failedToUnpack e => some e
  | _ => none

/-- The DNS wire codec: `(*dns.Msg).PackBuffer` and `(*dns.Msg).Unpack`. -/
structure WireCodec (Msg : Type) where
  Pack : Msg → Except WireErr (List Byte)
  Unpack : List Byte → Except WireErr Msg

/-- The part of `*redis.Client` this package uses, over a backend state `σ`.
`Get` is `client.Get(ctx, key).Bytes()`; `Set` is
`client.Set(ctx, key, value, ttl).Err()`. -/
structure Client (σ : Type) where
  Get : σ → String → σ × Except RedisErr (List Byte)
  Set : σ → String → List Byte → Int → σ × Option RedisErr

/-- Modelled from the spec: `pool.PackBuffer` (package `dispatcher/pkg/pool`
is not among the sources) packs the message with the DNS wire codec into a
pooled buffer and returns the wire bytes or the codec's error. -/
def pool.PackBuffer {Msg : Type} (codec : WireCodec Msg) (m : Msg) : Except Error (List Byte) :=
  match codec.Pack m with
  | .ok w => .ok w
  | .error e => .error (.wire e)

/-- Modelled from the spec: `pool.GetBuf` (package `dispatcher/pkg/pool` is
not among the sources) hands out a buffer of the requested length from a
pooled allocator.  A recycled buffer is not cleared: `junk i` is the byte it
holds at index `i`. -/
def pool.GetBuf (junk : Nat → Byte) (size : Nat) : List Byte :=
  (List.range size).map junk

/-! ## The record codec -/

/-- Go `packRedisData` (redis_cache.go:87-99). -/
def packRedisData {Msg : Type} (codec : WireCodec Msg) (junk : Nat → Byte)
    (storedTime expirationTime : Time) (m : Msg) : Except Error (List Byte) :=
  match pool.PackBuffer codec m with
  | .error err => .error err
  | .ok wireMsg =>
    let v := pool.GetBuf junk (8 + 8 + wireMsg.length)
    let v := writeSlice v 0 8 (BigEndian.PutUint64 (slice v 0 8) (uint64 storedTime.Unix))
    let v := writeSlice v 8 16 (BigEndian.PutUint64 (slice v 8 16) (uint64 expirationTime.Unix))
    let v := writeSlice v 16 v.length (copy (slice v 16 v.length) wireMsg)
    .ok v

/-- The four results of `unpackRedisValue`. -/
structure Unpacked (Msg : Type) where
  storedTime : Time
  expirationTime : Time
  m : Option Msg
  err : Option Error
deriving DecidableEq

/-- Go `unpackRedisValue` (redis_cache.go:101-114). -/
def unpackRedisValue {Msg : Type} (codec : WireCodec Msg) (b : List Byte) : Unpacked Msg :=
  if b.length < 16 then
    ⟨Time.zero, Time.zero, none, some .tooShort⟩
  else
    let storedTime := time.Unix (int64 (BigEndian.Uint64 (slice b 0 8))) 0
    let expirationTime := time.Unix (int64 (BigEndian.Uint64 (slice b 8 16))) 0
    match codec.Unpack (slice b 16 b.length) with
    | .error err => ⟨Time.zero, Time.zero, none, some (.wire err)⟩
    | .ok m => ⟨storedTime, expirationTime, some m, none⟩

/-! ## The cache operations -/

/-- The four results of `RedisCache.Get`. -/
structure GetResult (Msg : Type) where
  v : Option Msg
  storedTime : Time
  expirationTime : Time
  err : Option Error
deriving DecidableEq

/-- The result `nil, time.Time{}, time.Time{}, err`. -/
def GetResult.failed {Msg : Type} (err : Option Error) : GetResult Msg :=
  ⟨none, Time.zero, Time.zero, err⟩

/-- Go `(*RedisCache).Get` (redis_cache.go:45-64).  `s` is the backend state
before the call, `now` the reading of `time.Now()` on line 59. -/
def RedisCache.Get {σ Msg : Type} (client : Client σ) (codec : WireCodec Msg) (s : σ)
    (now : Time) (key : String) (allowExpired : Bool) : σ × GetResult Msg :=
  match client.Get s key with
  | (s, .error err) =>
    if err = RedisErr.Nil then (s, GetResult.failed none)
    else (s, GetResult.failed (some (.redis err)))
  | (s, .ok b) =>
    let r := unpackRedisValue codec b
    match r.err with
    | some err => (s, GetResult.failed (some (.failedToUnpack err)))
    | none =>
      if !allowExpired && r.expirationTime.Before now then (s, GetResult.failed none)
      else (s, ⟨r.m, r.storedTime, r.expirationTime, none⟩)

/-- Go `(*RedisCache).Store` (redis_cache.go:66-78).  `s` is the backend state
before the call, `now` the reading of `time.Now()` on line 67 and `now2` the
reading on line 77. -/
def RedisCache.Store {σ Msg : Type} (client : Client σ) (codec : WireCodec Msg)
    (junk : Nat → Byte) (s : σ) (now now2 : Time) (key : String) (v : Msg)
    (storedTime expirationTime : Time) : σ × Option Error :=
  if now.After expirationTime then (s, none)
  else
    match packRedisData codec junk storedTime expirationTime v with
    | .error err => (s, some err)
    | .ok data =>
      match client.Set s key data (expirationTime.Sub now2) with
      | (s, err) => (s, err.map Error.redis)

/-! ## Concrete collaborators used to evaluate the model -/

/-- One command sent to the backend. -/
inductive Call where
  | get (key : String)
  | set (key : String) (value : List Byte) (ttl : Int)
deriving DecidableEq, Repr

/-- A client that records every command it is sent and answers each `Get`
with `getReply` and each `Set` with `setReply`. -/
def traceClient (getReply : Except RedisErr (List Byte)) (setReply : Option RedisErr) :
    Client (List Call) where
  Get := fun s key => (s ++ [Call.get key], getReply)
  Set := fun s key value ttl => (s ++ [Call.set key value ttl], setReply)

/-- A toy wire codec on raw byte strings: packing is the identity, unpacking
rejects anything shorter than the twelve-byte DNS header. -/
def headerCodec : WireCodec (List Byte) where
  Pack := fun m => .ok m
  Unpack := fun b => if b.length < 12 then .error ⟨"dns: overflow unpacking uint16"⟩ else .ok b

/-- An in-memory backend that keeps every value it is set and answers
`redis.Nil` for a key it does not hold.  Expiry by TTL is not simulated: it
stands for a backend read right after a write. -/
def memClient : Client (List (String × List Byte)) where
  Get := fun s key =>
    match s.lookup key with
    | some b => (s, .ok b)
    | none => (s, .error RedisErr.Nil)
  Set := fun s key value _ => ((key, value) :: s, none)

/-- Twelve zero bytes: an empty DNS message (header only). -/
def emptyMsg : List Byte := [0, 0, 0, 0, 0, 0, 0, 0, 0, 0, 0, 0]

/-- A wire codec whose packer rejects every message. -/
def failingCodec : WireCodec (List Byte) where
  Pack := fun _ => .error ⟨"dns: bad rdata"⟩
  Unpack := fun b => .ok b

end redis_cache

/-!
The executable command sequence of mosdns (`dispatcher/pkg/executable_seq`).

Only the test `executable_cmd_sequence_test.go` of this package is among the
sources.  The test table and the test's checks are translated from it; the
parser, the interpreter, the plugin registry and the dummy plugins are
modelled from the specification (sections 3, 4.1, 4.2, 4.5 and 4.6).

The specification's section 4.6.4 lets a Conditional absorb a Skip raised in
its branch, while the test `test early return in if branch` expects the whole
pipeline to end without error.  Both readings are kept, as a `SkipScope`
argument of the interpreter; the reading that the test suite accepts is
`SkipScope.pipeline`.

Deadlines and cancellation of a query context are not modelled, and neither
is its metadata map.  The ghost field `State.trace` records every plugin
invocation so that "is not invoked" can be stated.
-/

namespace executable_seq

/-! ### Data model -/

/-- A DNS message, reduced to the one field the test reads (`dns.Msg.Id`). -/
structure Msg where
  Id : Nat
deriving DecidableEq, Repr

/-- Go `error` values of the pipeline. -/
inductive Err where
  /-- An error returned by a plugin, such as `errors.New("mErr")`. -/
  | plugin (msg : String)
  /-- The pipeline references a tag that is not in the registry. -/
  | unknownTag (tag : String)
  /-- The tag is used in a slot whose capability the plugin lacks. -/
  | capabilityMismatch (tag : String)
deriving DecidableEq, Repr

/-- Modelled from the spec: the Query Context (package `handler` is not among
the sources), section 3: the request and the nullable response slot. -/
structure Context where
  q : Msg
  r : Option Msg
deriving DecidableEq, Repr

/-- The three-way result of running a node (spec section 9): finished,
finished with the Skip signal, or failed. -/
inductive Signal where
  | done
  | skip
  | err (e : Err)
deriving DecidableEq, Repr

/-- Modelled from the spec: a plugin (package `handler` is not among the
sources), section 3: a matcher capability yielding `(matched, error)` and an
executable capability that mutates the context and yields an error or a
control signal; a plugin has one or both. -/
structure Plugin where
  matcher : Option (Context → Bool × Option Err)
  executable : Option (Context → Context × Signal)

/-- Modelled from the spec: the plugin registry (package `handler` is not
among the sources), section 4.2: plugins indexed by their tag, latest
registration first. -/
abbrev Registry := List (String × Plugin)

/-- Modelled from the spec: registry `Lookup(tag)`, section 4.2. -/
def Lookup (reg : Registry) (tag : String) : Option Plugin := reg.lookup tag

/-- Modelled from the spec: a Matcher Reference, section 3. -/
structure MatcherRef where
  tag : String
  negated : Bool
deriving DecidableEq, Repr

/-- Modelled from the spec: the mode of a Conditional, section 3. -/
inductive Mode where
  | Or
  | And
deriving DecidableEq, Repr

/-- Modelled from the spec: a Compiled Node, section 3. -/
inductive Node where
  | execRef (tag : String)
  | sequence (children : List Node)
  | conditional (mode : Mode) (tests : List MatcherRef) (thenB : Node) (elseB : Option Node)

/-- A decoded configuration tree (spec section 6): a string, an ordered
list, or a mapping given as its key/value pairs. -/
inductive Config where
  | str (s : String)
  | seq (items : List Config)
  | map (entries : List (String × Config))

/-- The parser's only error kind. -/
structure SyntaxError where
  msg : String
deriving DecidableEq, Repr

/-! ### Parser -/

/-- Modelled from the spec: parsing of one `if`/`if_and` element, sections 3
and 4.5: the literal `"!foo"` is the tag `foo`, negated. -/
def parseMatcherRef (s : String) : MatcherRef :=
  match s.data with
  | '!' :: rest => ⟨String.mk rest, true⟩
  | _ => ⟨s, false⟩

/-- Modelled from the spec: the elements of an `if`/`if_and` list, section
4.5: each must be a string. -/
def parseTestItems : List Config → Except SyntaxError (List MatcherRef)
  | [] => .ok []
  | .str s :: rest =>
    match parseTestItems rest with
    | .ok ms => .ok (parseMatcherRef s :: ms)
    | .error e => .error e
  | _ :: _ => .error ⟨"malformed scalar type"⟩

/-- Modelled from the spec: the value of an `if`/`if_and` key, section 4.5: a
non-empty list of strings. -/
def parseTests : Config → Except SyntaxError (List MatcherRef)
  | .seq [] => .error ⟨"empty if"⟩
  | .seq items => parseTestItems items
  | _ => .error ⟨"malformed scalar type"⟩

/-- The keys of a mapping, as far as they have been read. -/
structure Fields where
  ifTests : Option (List MatcherRef)
  ifAndTests : Option (List MatcherRef)
  exec : Option Node
  elseExec : Option Node

/-- Modelled from the spec: what a mapping compiles to once its keys are read,
sections 4.5 and 6. -/
def assemble (f : Fields) : Except SyntaxError Node :=
  match f.ifTests, f.ifAndTests, f.exec with
  | some _, some _, _ => .error ⟨"both if and if_and"⟩
  | some _, none, none => .error ⟨"missing exec"⟩
  | none, some _, none => .error ⟨"missing exec"⟩
  | some tests, none, some n => .ok (.conditional .Or tests n f.elseExec)
  | none, some tests, some n => .ok (.conditional .And tests n f.elseExec)
  | none, none, some n =>
    match f.elseExec with
    | none => .ok (.sequence [n])
    | some _ => .error ⟨"else_exec without if"⟩
  | none, none, none => .error ⟨"missing exec"⟩

mutual
/-- Modelled from the spec: `ParseExecutableNode` (not among the sources),
section 4.5: a string is an executable tag, a list a Sequence, a mapping a
Sequence over its `exec` child or a Conditional. -/
def ParseExecutableNode : Config → Except SyntaxError Node
  | .str s => .ok (.execRef s)
  | .seq items =>
    match parseList items with
    | .ok ns => .ok (.sequence ns)
    | .error e => .error e
  | .map entries =>
    match parseMap entries ⟨none, none, none, none⟩ with
    | .ok f => assemble f
    | .error e => .error e
/-- Modelled from the spec: the children of a list, section 4.5. -/
def parseList : List Config → Except SyntaxError (List Node)
  | [] => .ok []
  | c :: cs =>
    match ParseExecutableNode c with
    | .error e => .error e
    | .ok n =>
      match parseList cs with
      | .error e => .error e
      | .ok ns => .ok (n :: ns)
/-- Modelled from the spec: the keys of a mapping, section 4.5; any key other
than `if`, `if_and`, `exec` and `else_exec` is a syntax error. -/
def parseMap : List (String × Config) → Fields → Except SyntaxError Fields
  | [], f => .ok f
  | (k, v) :: rest, f =>
    if k = "if" then
      match parseTests v with
      | .ok ms => parseMap rest { f with ifTests := some ms }
      | .error e => .error e
    else if k = "if_and" then
      match parseTests v with
      | .ok ms => parseMap rest { f with ifAndTests := some ms }
      | .error e => .error e
    else if k = "exec" then
      match ParseExecutableNode v with
      | .ok n => parseMap rest { f with exec := some n }
      | .error e => .error e
    else if k = "else_exec" then
      match ParseExecutableNode v with
      | .ok n => parseMap rest { f with elseExec := some n }
      | .error e => .error e
    else .error ⟨"unknown key"⟩
end

/-! ### Interpreter -/

/-- One plugin invocation. -/
inductive Invocation where
  | matcher (tag : String)
  | executable (tag : String)
deriving DecidableEq, Repr

/-- The query context together with the record of the plugin invocations made
so far. -/
structure State where
  ctx : Context
  trace : List Invocation
deriving DecidableEq, Repr

/-- Where a Skip stops: `pipeline` lets it end the whole pipeline (what the
test suite expects); `branch` lets the Conditional whose branch raised it
absorb it (the wording of spec section 4.6.4). -/
inductive SkipScope where
  | pipeline
  | branch
deriving DecidableEq, Repr

/-- Modelled from the spec: dispatch of one matcher, section 4.6.3: look up
the tag, invoke the matcher capability, then apply the negation; an error of
the matcher is returned as it is. -/
def evalMatcher (reg : Registry) (m : MatcherRef) (st : State) : State × Except Err Bool :=
  match Lookup reg m.tag with
  | none => (st, .error (.unknownTag m.tag))
  | some p =>
    match p.matcher with
    | none => (st, .error (.capabilityMismatch m.tag))
    | some f =>
      match f st.ctx with
      | (_, some e) => (⟨st.ctx, st.trace ++ [.matcher m.tag]⟩, .error e)
      | (b, none) => (⟨st.ctx, st.trace ++ [.matcher m.tag]⟩, .ok (if m.negated then !b else b))

/-- Modelled from the spec: boolean evaluation of a Conditional, section
4.6.3: left to right, stopping at the first `true` in `Or` mode, at the first
`false` in `And` mode, and at the first matcher error. -/
def evalTests (reg : Registry) (mode : Mode) : List MatcherRef → State → State × Except Err Bool
  | [], st => (st, .ok (decide (mode = Mode.And)))
  | m :: rest, st =>
    match evalMatcher reg m st with
    | (st1, .error e) => (st1, .error e)
    | (st1, .ok b) =>
      match mode with
      | .Or => if b then (st1, .ok true) else evalTests reg mode rest st1
      | .And => if b then evalTests reg mode rest st1 else (st1, .ok false)

/-- Modelled from the spec: executable dispatch, section 4.6.1: look up the
tag, invoke the executable capability, return its signal. -/
def execPlugin (reg : Registry) (tag : String) (st : State) : State × Signal :=
  match Lookup reg tag with
  | none => (st, .err (.unknownTag tag))
  | some p =>
    match p.executable with
    | none => (st, .err (.capabilityMismatch tag))
    | some f => (⟨(f st.ctx).1, st.trace ++ [.executable tag]⟩, (f st.ctx).2)

/-- The result of a branch as seen from outside its Conditional. -/
def leaveBranch (scope : SkipScope) (r : State × Signal) : State × Signal :=
  match scope, r with
  | .branch, (st, .skip) => (st, .done)
  | _, r => r

mutual
/-- Modelled from the spec: `exec(ctx, node)`, section 4.6: an executable
reference is dispatched, a Sequence runs its children in order, a Conditional
evaluates its tests and runs the then- or else-branch. -/
def exec (scope : SkipScope) (reg : Registry) : Node → State → State × Signal
  | .execRef tag, st => execPlugin reg tag st
  | .sequence children, st => execList scope reg children st
  | .conditional mode tests thenB elseB, st =>
    match evalTests reg mode tests st with
    | (st1, .error e) => (st1, .err e)
    | (st1, .ok true) => leaveBranch scope (exec scope reg thenB st1)
    | (st1, .ok false) => leaveBranch scope (execOpt scope reg elseB st1)
/-- Modelled from the spec: a Sequence, section 4.6.2: children run in order;
the first error or Skip stops it and is propagated. -/
def execList (scope : SkipScope) (reg : Registry) : List Node → State → State × Signal
  | [], st => (st, .done)
  | c :: cs, st =>
    match exec scope reg c st with
    | (st1, .done) => execList scope reg cs st1
    | (st1, sig) => (st1, sig)
/-- Modelled from the spec: the optional else-branch, section 4.6.3: a no-op
when absent. -/
def execOpt (scope : SkipScope) (reg : Registry) : Option Node → State → State × Signal
  | none, st => (st, .done)
  | some n, st => exec scope reg n st
end

/-- Modelled from the spec: `handler.ExecChainNode` (not among the sources),
sections 4.6 and 4.6.4: runs the root node; a Skip that reaches the root is
success. -/
def ExecChainNode (scope : SkipScope) (reg : Registry) (root : Node) (st : State) :
    State × Option Err :=
  match exec scope reg root st with
  | (st1, .err e) => (st1, some e)
  | (st1, _) => (st1, none)

/-! ### The test `Test_ECS` -/

/-- Modelled from the spec: `handler.DummyMatcherPlugin` (not among the
sources): a matcher that answers `(Matched, WantErr)`. -/
def DummyMatcherPlugin (Matched : Bool) (WantErr : Option Err) : Plugin where
  matcher := some (fun _ => (Matched, WantErr))
  executable := none

/-- Modelled from the spec: `handler.DummyExecutablePlugin` (not among the
sources): an executable that fails with `WantErr` when it is set; otherwise
installs `WantR` as the response when it is set, and signals Skip when
`WantSkip` is set. -/
def DummyExecutablePlugin (WantR : Option Msg) (WantErr : Option Err) (WantSkip : Bool) :
    Plugin where
  matcher := none
  executable := some (fun ctx =>
    match WantErr with
    | some e => (ctx, .err e)
    | none =>
      ((match WantR with
        | some r => ⟨ctx.q, some r⟩
        | none => ctx),
       if WantSkip then .skip else .done))

/-- Go `mErr := errors.New("mErr")` (test, line 16). -/
def mErr : Err := .plugin "mErr"

/-- Go `eErr := errors.New("eErr")` (test, line 17). -/
def eErr : Err := .plugin "eErr"

/-- Go `target` (test, lines 18-19); `dns.Id()` is random, here a fixed
non-zero value. -/
def target : Msg := ⟨4660⟩

/-- The plugins the test registers (lines 141-183). -/
def testRegistry : Registry :=
  [("not_matched", DummyMatcherPlugin false none),
   ("exec", DummyExecutablePlugin none none false),
   ("exec_target", DummyExecutablePlugin (some target) none false),
   ("exec_skip", DummyExecutablePlugin none none true),
   ("matched", DummyMatcherPlugin true none),
   ("match_err", DummyMatcherPlugin false (some mErr)),
   ("exec_err", DummyExecutablePlugin none (some eErr) false)]

/-- One row of the test table (lines 21-26); `yaml` is `args["exec"]` after
`yaml.Unmarshal`. -/
structure TestCase where
  name : String
  yaml : Config
  wantTarget : Bool
  wantErr : Option Err

/-- The test table (lines 28-139). -/
def tests : List TestCase :=
  [ ⟨"test ! prefix",
      .seq [.map [("if", .seq [.str "!matched", .str "not_matched"]), ("exec", .str "exec_err")],
            .map [("if", .seq [.str "!not_matched"]), ("exec", .str "exec_target")]],
      true, none⟩,
    ⟨"test matcher short circuit",
      .seq [.map [("if", .seq [.str "matched", .str "match_err"]), ("exec", .str "exec_target")]],
      true, none⟩,
    ⟨"test muti_if",
      .seq [.map [("if", .seq [.str "matched"]),
                  ("exec", .seq [.str "exec", .str "exec", .str "exec"])],
            .map [("if", .seq [.str "matched"]), ("exec", .str "exec_target")]],
      true, none⟩,
    ⟨"test if else_exec",
      .seq [.map [("if", .seq [.str "!matched"]), ("exec", .str "exec_err"),
                  ("else_exec", .str "exec_target")]],
      true, none⟩,
    ⟨"test multi if else_exec",
      .seq [.map [("if", .seq [.str "!matched"]), ("exec", .seq [.str "exec_err"]),
                  ("else_exec", .seq [.str "exec"])],
            .map [("if", .seq [.str "!matched"]), ("exec", .seq [.str "exec_err"]),
                  ("else_exec", .seq [.str "exec_target"])]],
      true, none⟩,
    ⟨"test nested if",
      .seq [.map [("if", .seq [.str "matched"]),
                  ("exec", .seq [.str "exec", .str "exec",
                     .map [("if", .seq [.str "matched"]), ("exec", .str "exec_target")]])]],
      true, none⟩,
    ⟨"test if_and",
      .seq [.map [("if_and", .seq [.str "matched", .str "not_matched"]),
                  ("exec", .str "exec_err")],
            .map [("if_and", .seq [.str "matched", .str "matched"]),
                  ("exec", .str "exec_target")]],
      true, none⟩,
    ⟨"test if err",
      .seq [.map [("if", .seq [.str "not_matched", .str "match_err"]), ("exec", .str "exec")]],
      false, some mErr⟩,
    ⟨"test if_and err",
      .seq [.map [("if_and", .seq [.str "matched", .str "match_err"]), ("exec", .str "exec")]],
      false, some mErr⟩,
    ⟨"test exec err",
      .seq [.str "exec", .str "exec_err"],
      false, some eErr⟩,
    ⟨"test exec err in if branch",
      .seq [.map [("if", .seq [.str "matched"]), ("exec", .seq [.str "exec", .str "exec_err"])]],
      false, some eErr⟩,
    ⟨"test return in main sequence",
      .seq [.str "exec", .str "exec_skip", .str "exec_err"],
      false, none⟩,
    ⟨"test early return in if branch",
      .seq [.map [("if", .seq [.str "matched"]),
                  ("exec", .seq [.str "exec_skip", .str "exec_err"])],
            .str "exec_err"],
      false, none⟩ ]

/-- Go `handler.NewContext(new(dns.Msg), nil)` (test, line 198), with an
empty invocation record. -/
def newState : State := ⟨⟨⟨0⟩, none⟩, []⟩

/-- The body of one subtest (lines 186-209): `true` when the subtest passes.
`errors.Is(err, wantErr)` is equality here, since no error of the test wraps
another. -/
def runTest (scope : SkipScope) (tt : TestCase) : Bool :=
  match ParseExecutableNode tt.yaml with
  | .error _ => false
  | .ok ecs =>
    match ExecChainNode scope testRegistry ecs newState with
    | (st, err) =>
      if (err ≠ none ∨ tt.wantErr ≠ none) ∧ err ≠ tt.wantErr then false
      else
        match st.ctx.r with
        | some gotTarget => !(tt.wantTarget && gotTarget.Id != target.Id)
        | none => !tt.wantTarget

end executable_seq

namespace redis_cache

/-! ## Lemmas on the integer conversions and the big-endian encoding -/

theorem be64_length (v : Nat) : (be64 v).length = 8 := rfl

theorem Uint64_be64_append (v : Nat) (rest : List Byte) :
    BigEndian.Uint64 (be64 v ++ rest) = v % 18446744073709551616 := by
  simp only [BigEndian.Uint64, be64, byte, List.cons_append, List.getD_cons_zero,
    List.getD_cons_succ]
  omega

theorem Uint64_be64 (v : Nat) : BigEndian.Uint64 (be64 v) = v % 18446744073709551616 := by
  have h := Uint64_be64_append v []
  simpa using h

theorem uint64_lt (x : Int) : uint64 x < 18446744073709551616 := by
  unfold uint64
  omega

theorem wrapInt64_range (x : Int) :
    -9223372036854775808 ≤ wrapInt64 x ∧ wrapInt64 x < 9223372036854775808 := by
  unfold wrapInt64
  omega

theorem wrapInt64_of_range (x : Int) (h1 : -9223372036854775808 ≤ x)
    (h2 : x < 9223372036854775808) : wrapInt64 x = x := by
  unfold wrapInt64
  omega

theorem int64_uint64 (x : Int) (h1 : -9223372036854775808 ≤ x)
    (h2 : x < 9223372036854775808) : int64 (uint64 x) = x := by
  unfold int64 uint64
  split <;> omega

theorem int64_range (u : Nat) :
    -9223372036854775808 ≤ int64 u ∧ int64 u < 9223372036854775808 := by
  unfold int64
  split <;> omega

theorem Unix_range (t : Time) :
    -9223372036854775808 ≤ t.Unix ∧ t.Unix < 9223372036854775808 :=
  wrapInt64_range _

theorem int64_Uint64_be64_uint64_Unix (t : Time) (rest : List Byte) :
    int64 (BigEndian.Uint64 (be64 (uint64 t.Unix) ++ rest)) = t.Unix := by
  rw [Uint64_be64_append, Nat.mod_eq_of_lt (uint64_lt _)]
  exact int64_uint64 _ (Unix_range t).1 (Unix_range t).2

/-! ## The shape of a packed record -/

theorem GetBuf_length (junk : Nat → Byte) (size : Nat) : (pool.GetBuf junk size).length = size := by
  simp [pool.GetBuf]

/-- The three writes of `packRedisData` into a buffer of length `16 + N`
leave nothing of the buffer's old contents. -/
theorem fill_buffer (v0 w : List Byte) (x y : Nat) (h : v0.length = 8 + 8 + w.length) :
    (let v := writeSlice v0 0 8 (BigEndian.PutUint64 (slice v0 0 8) x)
     let v := writeSlice v 8 16 (BigEndian.PutUint64 (slice v 8 16) y)
     writeSlice v 16 v.length (copy (slice v 16 v.length) w))
      = be64 x ++ (be64 y ++ w) := by
  have e1 : writeSlice v0 0 8 (BigEndian.PutUint64 (slice v0 0 8) x) = be64 x ++ v0.drop 8 := by
    simp [writeSlice, BigEndian.PutUint64, slice]
  have e2 : writeSlice (be64 x ++ v0.drop 8) 8 16
      (BigEndian.PutUint64 (slice (be64 x ++ v0.drop 8) 8 16) y)
      = be64 x ++ (be64 y ++ v0.drop 16) := by
    have t : (be64 x ++ v0.drop 8).take 8 = be64 x := List.take_left' (be64_length x)
    have d : (be64 x ++ v0.drop 8).drop 16 = v0.drop 16 := by
      rw [List.drop_append_eq_append_drop, be64_length]
      simp [be64]
    simp [writeSlice, BigEndian.PutUint64, slice, t, d]
  have l3 : (be64 x ++ (be64 y ++ v0.drop 16)).length = 16 + w.length := by
    simp [be64_length, h]
    omega
  have e3 : writeSlice (be64 x ++ (be64 y ++ v0.drop 16)) 16 (16 + w.length)
      (copy (slice (be64 x ++ (be64 y ++ v0.drop 16)) 16 (16 + w.length)) w)
      = be64 x ++ (be64 y ++ w) := by
    have t : (be64 x ++ (be64 y ++ v0.drop 16)).take 16 = be64 x ++ be64 y := by
      rw [← List.append_assoc]
      exact List.take_left' (by simp [be64_length])
    have d : (be64 x ++ (be64 y ++ v0.drop 16)).drop 16 = v0.drop 16 := by
      rw [← List.append_assoc]
      exact List.drop_left' (by simp [be64_length])
    have ld : (v0.drop 16).length = w.length := by
      simp [h]
    have d2 : (be64 x ++ (be64 y ++ v0.drop 16)).drop (16 + w.length) = [] := by
      apply List.drop_of_length_le
      omega
    have s3 : slice (be64 x ++ (be64 y ++ v0.drop 16)) 16 (16 + w.length) = v0.drop 16 := by
      unfold slice
      rw [d]
      apply List.take_of_length_le
      omega
    rw [s3]
    unfold writeSlice copy
    rw [t, d2, ld, List.take_of_length_le (le_refl _), List.drop_of_length_le (by omega)]
    simp
  simp only [e1, e2, l3, e3]

/-- What `packRedisData` returns when the wire codec packs the message. -/
theorem packRedisData_ok {Msg : Type} (codec : WireCodec Msg) (junk : Nat → Byte)
    (storedTime expirationTime : Time) (m : Msg) (w : List Byte) (hw : codec.Pack m = .ok w) :
    packRedisData codec junk storedTime expirationTime m
      = .ok (be64 (uint64 storedTime.Unix) ++ (be64 (uint64 expirationTime.Unix) ++ w)) := by
  have h := fill_buffer (pool.GetBuf junk (8 + 8 + w.length)) w (uint64 storedTime.Unix)
    (uint64 expirationTime.Unix) (GetBuf_length _ _)
  simp only [packRedisData, pool.PackBuffer, hw]
  exact congrArg Except.ok h

/-- What `packRedisData` returns when the wire codec rejects the message. -/
theorem packRedisData_error {Msg : Type} (codec : WireCodec Msg) (junk : Nat → Byte)
    (storedTime expirationTime : Time) (m : Msg) (e : WireErr) (hw : codec.Pack m = .error e) :
    packRedisData codec junk storedTime expirationTime m = .error (.wire e) := by
  simp only [packRedisData, pool.PackBuffer, hw]

/-! ## Unpacking -/

theorem slice_zero (b : List Byte) (n : Nat) : slice b 0 n = b.take n := by
  simp [slice]

theorem slice_to_length (b : List Byte) (n : Nat) : slice b n b.length = b.drop n := by
  unfold slice
  apply List.take_of_length_le
  simp

/-- What `unpackRedisValue` returns on a value of at least sixteen bytes. -/
theorem unpackRedisValue_long {Msg : Type} (codec : WireCodec Msg) (b : List Byte)
    (h : 16 ≤ b.length) :
    unpackRedisValue codec b =
      match codec.Unpack (b.drop 16) with
      | .error err => ⟨Time.zero, Time.zero, none, some (.wire err)⟩
      | .ok m => ⟨time.Unix (int64 (BigEndian.Uint64 (b.take 8))) 0,
                  time.Unix (int64 (BigEndian.Uint64 ((b.drop 8).take 8))) 0, some m, none⟩ := by
  have hlt : ¬ b.length < 16 := by omega
  simp only [unpackRedisValue, hlt, if_false, slice_zero, slice_to_length]
  rfl

/-- What `unpackRedisValue` returns on a record laid out as `packRedisData`
lays it out. -/
theorem unpackRedisValue_packed {Msg : Type} (codec : WireCodec Msg) (stored expires : Time)
    (w : List Byte) :
    unpackRedisValue codec (be64 (uint64 stored.Unix) ++ (be64 (uint64 expires.Unix) ++ w)) =
      match codec.Unpack w with
      | .error err => ⟨Time.zero, Time.zero, none, some (.wire err)⟩
      | .ok m => ⟨time.Unix stored.Unix 0, time.Unix expires.Unix 0, some m, none⟩ := by
  have hlen : 16 ≤ (be64 (uint64 stored.Unix) ++ (be64 (uint64 expires.Unix) ++ w)).length := by
    simp only [List.length_append, be64_length]
    omega
  have d16 : (be64 (uint64 stored.Unix) ++ (be64 (uint64 expires.Unix) ++ w)).drop 16 = w := by
    rw [← List.append_assoc]
    exact List.drop_left' (by simp [be64_length])
  have t8 : (be64 (uint64 stored.Unix) ++ (be64 (uint64 expires.Unix) ++ w)).take 8
      = be64 (uint64 stored.Unix) := List.take_left' (be64_length _)
  have d8 : (be64 (uint64 stored.Unix) ++ (be64 (uint64 expires.Unix) ++ w)).drop 8
      = be64 (uint64 expires.Unix) ++ w := List.drop_left' (be64_length _)
  have t8' : (be64 (uint64 expires.Unix) ++ w).take 8 = be64 (uint64 expires.Unix) :=
    List.take_left' (be64_length _)
  have i1 := int64_Uint64_be64_uint64_Unix stored []
  have i2 := int64_Uint64_be64_uint64_Unix expires []
  rw [List.append_nil] at i1 i2
  rw [unpackRedisValue_long codec _ hlen, d16, t8, d8, t8', i1, i2]

/-- A timestamp that went through `Unix()` and `time.Unix(_, 0)` is the
original rounded down to a whole second, as long as its seconds fit `int64`. -/
theorem time_Unix_Unix (t : Time) (h1 : -9223372036854775808 ≤ t.ns / 1000000000)
    (h2 : t.ns / 1000000000 < 9223372036854775808) :
    (time.Unix t.Unix 0).ns = t.ns - t.ns % 1000000000 := by
  simp only [time.Unix, Time.Unix, wrapInt64_of_range _ h1 h2]
  omega

/-- What `RedisCache.Get` does once the backend has answered with a value. -/
theorem Get_value {σ Msg : Type} (client : Client σ) (codec : WireCodec Msg) (s s1 : σ)
    (now : Time) (key : String) (allowExpired : Bool) (b : List Byte)
    (hget : client.Get s key = (s1, .ok b)) :
    RedisCache.Get client codec s now key allowExpired =
      match (unpackRedisValue codec b).err with
      | some err => (s1, GetResult.failed (some (.failedToUnpack err)))
      | none =>
        if !allowExpired && (unpackRedisValue codec b).expirationTime.Before now then
          (s1, GetResult.failed none)
        else
          (s1, ⟨(unpackRedisValue codec b).m, (unpackRedisValue codec b).storedTime,
            (unpackRedisValue codec b).expirationTime, none⟩) := by
  simp only [RedisCache.Get, hget]

/-- What `RedisCache.Store` does when the record is not skipped and packs. -/
theorem Store_set {σ Msg : Type} (client : Client σ) (codec : WireCodec Msg) (junk : Nat → Byte)
    (s : σ) (now now2 : Time) (key : String) (v : Msg) (stored expires : Time) (w : List Byte)
    (hpack : codec.Pack v = .ok w) (hnow : now.ns ≤ expires.ns) :
    RedisCache.Store client codec junk s now now2 key v stored expires =
      ((client.Set s key (be64 (uint64 stored.Unix) ++ (be64 (uint64 expires.Unix) ++ w))
          (expires.Sub now2)).1,
       (client.Set s key (be64 (uint64 stored.Unix) ++ (be64 (uint64 expires.Unix) ++ w))
          (expires.Sub now2)).2.map Error.redis) := by
  have hafter : now.After expires = false := by
    simp only [Time.After, decide_eq_false_iff_not]
    omega
  simp only [RedisCache.Store, hafter, packRedisData_ok codec junk stored expires v w hpack]
  rfl

/-! ## C1: unpack after pack -/

/-- C1. For all timestamps (negative Unix seconds included) and every message
`m` that the wire codec packs into `w` and decodes back into `m'`,
`unpackRedisValue (packRedisData stored expires m)` succeeds with the
timestamps `time.Unix(stored.Unix(), 0)` and `time.Unix(expires.Unix(), 0)`
and the message `m'`; such a timestamp is the original rounded down to a
whole second. -/
theorem C1_unpack_pack_roundtrip {Msg : Type} (codec : WireCodec Msg) (junk : Nat → Byte)
    (stored expires : Time) (m m' : Msg) (w : List Byte)
    (hpack : codec.Pack m = .ok w) (hunpack : codec.Unpack w = .ok m') :
    (∃ data, packRedisData codec junk stored expires m = .ok data ∧
      unpackRedisValue codec data
        = ⟨time.Unix stored.Unix 0, time.Unix expires.Unix 0, some m', none⟩) ∧
    (∀ t : Time, -9223372036854775808 ≤ t.ns / 1000000000 →
      t.ns / 1000000000 < 9223372036854775808 →
      (time.Unix t.Unix 0).ns = t.ns - t.ns % 1000000000) := by
  refine ⟨⟨_, packRedisData_ok codec junk stored expires m w hpack, ?_⟩, time_Unix_Unix⟩
  rw [unpackRedisValue_packed, hunpack]

/-- C1 at a record stored 1.5 s before the epoch and expiring 61.25 s after
it, in a recycled buffer full of `0xff`. -/
theorem C1_unpack_pack_roundtrip_witness :
    (∃ data, packRedisData headerCodec (fun _ => 255) ⟨-1500000000⟩ ⟨61250000000⟩ emptyMsg
        = .ok data ∧
      unpackRedisValue headerCodec data
        = ⟨time.Unix (Time.Unix ⟨-1500000000⟩) 0, time.Unix (Time.Unix ⟨61250000000⟩) 0,
            some emptyMsg, none⟩) ∧
    (∀ t : Time, -9223372036854775808 ≤ t.ns / 1000000000 →
      t.ns / 1000000000 < 9223372036854775808 →
      (time.Unix t.Unix 0).ns = t.ns - t.ns % 1000000000) :=
  C1_unpack_pack_roundtrip headerCodec (fun _ => 255) ⟨-1500000000⟩ ⟨61250000000⟩
    emptyMsg emptyMsg emptyMsg rfl rfl

/-! ## C2: Store of an expired record -/

/-- C2, as stated, fails at `expires = now`: the record is packed and one
`Set` with TTL 0 reaches the backend. -/
theorem C2_store_at_boundary_calls_backend :
    (⟨5000000000⟩ : Time).ns ≤ (⟨5000000000⟩ : Time).ns ∧
    RedisCache.Store (traceClient (.error RedisErr.Nil) none) headerCodec (fun _ => 0) []
        ⟨5000000000⟩ ⟨5000000000⟩ "k" emptyMsg ⟨0⟩ ⟨5000000000⟩
      = ([Call.set "k" [0, 0, 0, 0, 0, 0, 0, 0, 0, 0, 0, 0, 0, 0, 0, 5,
                        0, 0, 0, 0, 0, 0, 0, 0, 0, 0, 0, 0] 0], none) ∧
    (RedisCache.Store (traceClient (.error RedisErr.Nil) none) headerCodec (fun _ => 0) []
        ⟨5000000000⟩ ⟨5000000000⟩ "k" emptyMsg ⟨0⟩ ⟨5000000000⟩).1 ≠ [] := by
  refine ⟨by decide, rfl, ?_⟩
  intro h
  have h2 : (RedisCache.Store (traceClient (.error RedisErr.Nil) none) headerCodec (fun _ => 0) []
      ⟨5000000000⟩ ⟨5000000000⟩ "k" emptyMsg ⟨0⟩ ⟨5000000000⟩).1.length = 1 := rfl
  rw [h] at h2
  exact absurd h2 (by decide)

/-- C2, amended. When `expires` is strictly before the clock reading, `Store`
leaves the backend state as it was and returns nil, whatever the client, the
codec and the message. -/
theorem C2_store_skips_expired {σ Msg : Type} (client : Client σ) (codec : WireCodec Msg)
    (junk : Nat → Byte) (s : σ) (now now2 : Time) (key : String) (v : Msg)
    (stored expires : Time) (h : expires.ns < now.ns) :
    RedisCache.Store client codec junk s now now2 key v stored expires = (s, none) := by
  have hafter : now.After expires = true := by
    simp only [Time.After, decide_eq_true_eq]
    exact h
  simp only [RedisCache.Store, hafter, if_true]

/-- C2 amended, at a record that expired one nanosecond ago: the recording
client has seen no command. -/
theorem C2_store_skips_expired_witness :
    RedisCache.Store (traceClient (.error RedisErr.Nil) none) headerCodec (fun _ => 0) []
        ⟨5000000001⟩ ⟨5000000001⟩ "k" emptyMsg ⟨0⟩ ⟨5000000000⟩ = ([], none) :=
  C2_store_skips_expired (traceClient (.error RedisErr.Nil) none) headerCodec (fun _ => 0) []
    ⟨5000000001⟩ ⟨5000000001⟩ "k" emptyMsg ⟨0⟩ ⟨5000000000⟩ (by decide)

/-! ## C3: Get without `allowExpired` -/

/-- C3, as stated, fails at `expires = now`: the record counts as expired
under "fresh iff `now < expires`", yet `Get` with `allowExpired = false`
returns it. -/
theorem C3_get_at_boundary_returns_record :
    unpackRedisValue headerCodec
        [0, 0, 0, 0, 0, 0, 0, 40, 0, 0, 0, 0, 0, 0, 0, 100,
         0, 0, 0, 0, 0, 0, 0, 0, 0, 0, 0, 0]
      = ⟨⟨40000000000⟩, ⟨100000000000⟩, some emptyMsg, none⟩ ∧
    ¬ ((⟨100000000000⟩ : Time).ns < (⟨100000000000⟩ : Time).ns) ∧
    RedisCache.Get
        (traceClient (.ok [0, 0, 0, 0, 0, 0, 0, 40, 0, 0, 0, 0, 0, 0, 0, 100,
                           0, 0, 0, 0, 0, 0, 0, 0, 0, 0, 0, 0]) none)
        headerCodec [] ⟨100000000000⟩ "k" false
      = ([Call.get "k"], ⟨some emptyMsg, ⟨40000000000⟩, ⟨100000000000⟩, none⟩) := by
  refine ⟨rfl, by decide, rfl⟩

/-- C3, amended. For a backend value that unpacks to `(stored, expires, m)`,
`Get` with `allowExpired = false` returns the nil triple with nil error
exactly when `expires` is strictly before the clock reading, and returns
`(m, stored, expires)` with nil error otherwise (also at `expires = now`). -/
theorem C3_get_suppresses_strictly_expired {σ Msg : Type} (client : Client σ)
    (codec : WireCodec Msg) (s s1 : σ) (now : Time) (key : String) (b : List Byte)
    (stored expires : Time) (m : Msg)
    (hget : client.Get s key = (s1, .ok b))
    (hrec : unpackRedisValue codec b = ⟨stored, expires, some m, none⟩) :
    (RedisCache.Get client codec s now key false = (s1, ⟨none, Time.zero, Time.zero, none⟩)
      ↔ expires.ns < now.ns) ∧
    (RedisCache.Get client codec s now key false = (s1, ⟨some m, stored, expires, none⟩)
      ↔ now.ns ≤ expires.ns) := by
  rw [Get_value client codec s s1 now key false b hget, hrec]
  by_cases h : expires.ns < now.ns
  · have hb : expires.Before now = true := by simp [Time.Before, h]
    simp [hb, GetResult.failed, h]
  · have hb : expires.Before now = false := by simp [Time.Before, h]
    simp [hb, GetResult.failed, h]
    omega

/-- C3 amended, at a record read one nanosecond after and exactly at its
expiration time. -/
theorem C3_get_suppresses_strictly_expired_witness :
    (RedisCache.Get
        (traceClient (.ok [0, 0, 0, 0, 0, 0, 0, 40, 0, 0, 0, 0, 0, 0, 0, 100,
                           0, 0, 0, 0, 0, 0, 0, 0, 0, 0, 0, 0]) none)
        headerCodec [] ⟨100000000001⟩ "k" false
      = ([Call.get "k"], ⟨none, Time.zero, Time.zero, none⟩)
      ↔ (⟨100000000000⟩ : Time).ns < (⟨100000000001⟩ : Time).ns) ∧
    (RedisCache.Get
        (traceClient (.ok [0, 0, 0, 0, 0, 0, 0, 40, 0, 0, 0, 0, 0, 0, 0, 100,
                           0, 0, 0, 0, 0, 0, 0, 0, 0, 0, 0, 0]) none)
        headerCodec [] ⟨100000000001⟩ "k" false
      = ([Call.get "k"], ⟨some emptyMsg, ⟨40000000000⟩, ⟨100000000000⟩, none⟩)
      ↔ (⟨100000000001⟩ : Time).ns ≤ (⟨100000000000⟩ : Time).ns) :=
  C3_get_suppresses_strictly_expired
    (traceClient (.ok [0, 0, 0, 0, 0, 0, 0, 40, 0, 0, 0, 0, 0, 0, 0, 100,
                       0, 0, 0, 0, 0, 0, 0, 0, 0, 0, 0, 0]) none)
    headerCodec [] [Call.get "k"] ⟨100000000001⟩ "k"
    [0, 0, 0, 0, 0, 0, 0, 40, 0, 0, 0, 0, 0, 0, 0, 100,
     0, 0, 0, 0, 0, 0, 0, 0, 0, 0, 0, 0]
    ⟨40000000000⟩ ⟨100000000000⟩ emptyMsg rfl rfl

/-! ## C4: Store followed by Get -/

/-- C4, as stated, fails when the clock reading lies between the expiration
time rounded down to a whole second and the expiration time itself: with
`stored = 100 s`, `expires = 160.5 s` and `now = 160.2 s`, `Store` writes the
record (TTL 0.3 s) and a `Get` at the same `now` on the backend that holds it
is a miss. -/
theorem C4_store_then_get_can_miss :
    RedisCache.Store memClient headerCodec (fun _ => 0) []
        ⟨160200000000⟩ ⟨160200000000⟩ "k" emptyMsg ⟨100000000000⟩ ⟨160500000000⟩
      = ([("k", [0, 0, 0, 0, 0, 0, 0, 100, 0, 0, 0, 0, 0, 0, 0, 160,
                 0, 0, 0, 0, 0, 0, 0, 0, 0, 0, 0, 0])], none) ∧
    RedisCache.Get memClient headerCodec
        (RedisCache.Store memClient headerCodec (fun _ => 0) []
          ⟨160200000000⟩ ⟨160200000000⟩ "k" emptyMsg ⟨100000000000⟩ ⟨160500000000⟩).1
        ⟨160200000000⟩ "k" false
      = ([("k", [0, 0, 0, 0, 0, 0, 0, 100, 0, 0, 0, 0, 0, 0, 0, 160,
                 0, 0, 0, 0, 0, 0, 0, 0, 0, 0, 0, 0])],
         ⟨none, Time.zero, Time.zero, none⟩) ∧
    Time.Sub ⟨160500000000⟩ ⟨160200000000⟩ = 300000000 := by
  refine ⟨rfl, rfl, rfl⟩

/-- C4, amended. If the wire codec packs `m` into `w` and decodes `w` into
`m'`, `Store` at `now` is not skipped (`now ≤ expires`) and `now` is not later
than the expiration time rounded down to a whole second, then `Store` hands
the packed record to the backend's `Set`, and `Get` with
`allowExpired = false` at the same `now`, on any backend state that holds
that value under the key, returns `m'` and both timestamps rounded down to
whole seconds, with nil error. -/
theorem C4_store_then_get {σ Msg : Type} (client : Client σ) (codec : WireCodec Msg)
    (junk : Nat → Byte) (s : σ) (now now2 : Time) (key : String) (m m' : Msg)
    (stored expires : Time) (w : List Byte)
    (hpack : codec.Pack m = .ok w) (hunpack : codec.Unpack w = .ok m')
    (hnow : now.ns ≤ expires.ns) (htrunc : now.ns ≤ (time.Unix expires.Unix 0).ns) :
    ∃ data, packRedisData codec junk stored expires m = .ok data ∧
      RedisCache.Store client codec junk s now now2 key m stored expires
        = ((client.Set s key data (expires.Sub now2)).1,
           (client.Set s key data (expires.Sub now2)).2.map Error.redis) ∧
      ∀ s1 s2 : σ, client.Get s1 key = (s2, .ok data) →
        RedisCache.Get client codec s1 now key false
          = (s2, ⟨some m', time.Unix stored.Unix 0, time.Unix expires.Unix 0, none⟩) := by
  refine ⟨_, packRedisData_ok codec junk stored expires m w hpack,
    Store_set client codec junk s now now2 key m stored expires w hpack hnow, ?_⟩
  intro s1 s2 hget
  have hrec := unpackRedisValue_packed codec stored expires w
  rw [hunpack] at hrec
  have hb : (time.Unix expires.Unix 0).Before now = false := by
    simp only [Time.Before, decide_eq_false_iff_not]
    omega
  rw [Get_value client codec s1 s2 now key false _ hget, hrec]
  simp [hb]

/-- C4 amended, at `stored = 100 s`, `expires = 160.5 s`, `now = 100.2 s` on
the in-memory backend. -/
theorem C4_store_then_get_witness :
    ∃ data, packRedisData headerCodec (fun _ => 0) ⟨100000000000⟩ ⟨160500000000⟩ emptyMsg
        = .ok data ∧
      RedisCache.Store memClient headerCodec (fun _ => 0) [] ⟨100200000000⟩ ⟨100200000000⟩
          "k" emptyMsg ⟨100000000000⟩ ⟨160500000000⟩
        = ((memClient.Set [] "k" data (Time.Sub ⟨160500000000⟩ ⟨100200000000⟩)).1,
           (memClient.Set [] "k" data (Time.Sub ⟨160500000000⟩ ⟨100200000000⟩)).2.map
             Error.redis) ∧
      ∀ s1 s2 : List (String × List Byte), memClient.Get s1 "k" = (s2, .ok data) →
        RedisCache.Get memClient headerCodec s1 ⟨100200000000⟩ "k" false
          = (s2, ⟨some emptyMsg, time.Unix (Time.Unix ⟨100000000000⟩) 0,
              time.Unix (Time.Unix ⟨160500000000⟩) 0, none⟩) :=
  C4_store_then_get memClient headerCodec (fun _ => 0) [] ⟨100200000000⟩ ⟨100200000000⟩ "k"
    emptyMsg emptyMsg ⟨100000000000⟩ ⟨160500000000⟩ emptyMsg rfl rfl (by decide) (by decide)

/-! ## C5: the too-short error -/

/-- C5. `unpackRedisValue` returns zero timestamps, a nil message and the
too-short error on every input shorter than sixteen bytes. On every input of
at least sixteen bytes it never returns that error: it hands bytes 16.. to the
wire decoder (nothing at all when the input has exactly sixteen bytes); if the
decoder accepts it returns the timestamps read big-endian from bytes 0..7 and
8..15 with the decoded message and nil error, and it fails exactly when the
decoder rejects, with the decoder's error. -/
theorem C5_unpack_too_short {Msg : Type} (codec : WireCodec Msg) (b : List Byte) :
    (b.length < 16 →
      unpackRedisValue codec b = ⟨Time.zero, Time.zero, none, some Error.tooShort⟩) ∧
    (16 ≤ b.length →
      (unpackRedisValue codec b).err ≠ some Error.tooShort ∧
      (∀ m, codec.Unpack (b.drop 16) = .ok m →
        unpackRedisValue codec b
          = ⟨time.Unix (int64 (BigEndian.Uint64 (b.take 8))) 0,
             time.Unix (int64 (BigEndian.Uint64 ((b.drop 8).take 8))) 0, some m, none⟩) ∧
      (∀ e, codec.Unpack (b.drop 16) = .error e →
        unpackRedisValue codec b = ⟨Time.zero, Time.zero, none, some (Error.wire e)⟩) ∧
      ((unpackRedisValue codec b).err ≠ none ↔ ∃ e, codec.Unpack (b.drop 16) = .error e)) ∧
    (b.length = 16 → b.drop 16 = []) := by
  refine ⟨?_, ?_, ?_⟩
  · intro h
    simp only [unpackRedisValue, h, if_true]
  · intro h
    rw [unpackRedisValue_long codec b h]
    cases hu : codec.Unpack (b.drop 16) with
    | error e => simp
    | ok m => simp
  · intro h
    exact List.drop_of_length_le (by omega)

/-- C5 at the empty input and at sixteen zero bytes (the toy decoder rejects
the empty payload). -/
theorem C5_unpack_too_short_witness :
    unpackRedisValue headerCodec [] = ⟨Time.zero, Time.zero, none, some Error.tooShort⟩ ∧
    (unpackRedisValue headerCodec [0, 0, 0, 0, 0, 0, 0, 0, 0, 0, 0, 0, 0, 0, 0, 0]).err
      ≠ some Error.tooShort ∧
    List.drop 16 ([0, 0, 0, 0, 0, 0, 0, 0, 0, 0, 0, 0, 0, 0, 0, 0] : List Byte) = [] :=
  ⟨(C5_unpack_too_short headerCodec []).1 (by decide),
   ((C5_unpack_too_short headerCodec [0, 0, 0, 0, 0, 0, 0, 0, 0, 0, 0, 0, 0, 0, 0, 0]).2.1
      (by decide)).1,
   (C5_unpack_too_short headerCodec [0, 0, 0, 0, 0, 0, 0, 0, 0, 0, 0, 0, 0, 0, 0, 0]).2.2 rfl⟩

/-! ## C6: the layout of a packed record -/

theorem uint64_eq_emod (x : Int) : ((uint64 x : Nat) : Int) = x % 18446744073709551616 := by
  unfold uint64
  omega

theorem be64_getD (v i : Nat) (rest : List Byte) (h : i < 8) :
    (be64 v ++ rest).getD i 0 = byte (v / 256 ^ (7 - i)) := by
  interval_cases i <;> simp [be64]

/-- C6. When the wire codec packs `m` into `w`, `packRedisData` returns a
buffer of exactly `16 + len w` bytes; byte `i` (for `i < 8`) is
`byte(u >> (8 * (7 - i)))` for `u = stored.Unix()` taken modulo `2^64`, byte
`8 + i` is the same for `expires.Unix()`, and the bytes from 16 on are `w`.
Nothing of the pooled buffer's old contents is left. -/
theorem C6_pack_layout {Msg : Type} (codec : WireCodec Msg) (junk : Nat → Byte)
    (stored expires : Time) (m : Msg) (w : List Byte) (hpack : codec.Pack m = .ok w) :
    ∃ data, packRedisData codec junk stored expires m = .ok data ∧
      data.length = 16 + w.length ∧
      (∀ i, i < 8 → data.getD i 0 = byte (uint64 stored.Unix / 256 ^ (7 - i))) ∧
      (∀ i, i < 8 → data.getD (8 + i) 0 = byte (uint64 expires.Unix / 256 ^ (7 - i))) ∧
      data.drop 16 = w ∧
      ((uint64 stored.Unix : Nat) : Int) = stored.Unix % 18446744073709551616 ∧
      ((uint64 expires.Unix : Nat) : Int) = expires.Unix % 18446744073709551616 ∧
      BigEndian.Uint64 (data.take 8) = uint64 stored.Unix ∧
      BigEndian.Uint64 ((data.drop 8).take 8) = uint64 expires.Unix := by
  have d8 : (be64 (uint64 stored.Unix) ++ (be64 (uint64 expires.Unix) ++ w)).drop 8
      = be64 (uint64 expires.Unix) ++ w := List.drop_left' (be64_length _)
  refine ⟨_, packRedisData_ok codec junk stored expires m w hpack, ?_, ?_, ?_, ?_,
    uint64_eq_emod _, uint64_eq_emod _, ?_, ?_⟩
  · simp only [List.length_append, be64_length]
    omega
  · intro i hi
    exact be64_getD _ i _ hi
  · intro i hi
    have h := be64_getD (uint64 expires.Unix) i w hi
    rw [List.getD_append_right _ _ _ _ (by rw [be64_length]; omega), be64_length,
      Nat.add_sub_cancel_left]
    exact h
  · rw [← List.append_assoc]
    exact List.drop_left' (by simp [be64_length])
  · rw [List.take_left' (be64_length _), Uint64_be64, Nat.mod_eq_of_lt (uint64_lt _)]
  · rw [d8, List.take_left' (be64_length _), Uint64_be64, Nat.mod_eq_of_lt (uint64_lt _)]

/-- C6 at a record stored two seconds before the epoch (`uint64` of `-2` is
`2^64 - 2`), in a recycled buffer full of `0xff`. -/
theorem C6_pack_layout_witness :
    ∃ data, packRedisData headerCodec (fun _ => 255) ⟨-1500000000⟩ ⟨61250000000⟩ emptyMsg
        = .ok data ∧
      data.length = 16 + emptyMsg.length ∧
      (∀ i, i < 8 → data.getD i 0 = byte (uint64 (Time.Unix ⟨-1500000000⟩) / 256 ^ (7 - i))) ∧
      (∀ i, i < 8 →
        data.getD (8 + i) 0 = byte (uint64 (Time.Unix ⟨61250000000⟩) / 256 ^ (7 - i))) ∧
      data.drop 16 = emptyMsg ∧
      ((uint64 (Time.Unix ⟨-1500000000⟩) : Nat) : Int)
        = Time.Unix ⟨-1500000000⟩ % 18446744073709551616 ∧
      ((uint64 (Time.Unix ⟨61250000000⟩) : Nat) : Int)
        = Time.Unix ⟨61250000000⟩ % 18446744073709551616 ∧
      BigEndian.Uint64 (data.take 8) = uint64 (Time.Unix ⟨-1500000000⟩) ∧
      BigEndian.Uint64 ((data.drop 8).take 8) = uint64 (Time.Unix ⟨61250000000⟩) :=
  C6_pack_layout headerCodec (fun _ => 255) ⟨-1500000000⟩ ⟨61250000000⟩ emptyMsg emptyMsg rfl

/-! ## C7: the TTL of the backend set -/

/-- C7, as stated, fails on the sign of the TTL. A record with
`expires = now` is not skipped and is set with TTL 0, even when both clock
readings coincide; and when the second reading is later than `expires` the
TTL is negative. -/
theorem C7_ttl_not_positive :
    RedisCache.Store (traceClient (.error RedisErr.Nil) none) headerCodec (fun _ => 0) []
        ⟨7000000000⟩ ⟨7000000000⟩ "k" emptyMsg ⟨1000000000⟩ ⟨7000000000⟩
      = ([Call.set "k" [0, 0, 0, 0, 0, 0, 0, 1, 0, 0, 0, 0, 0, 0, 0, 7,
                        0, 0, 0, 0, 0, 0, 0, 0, 0, 0, 0, 0] 0], none) ∧
    RedisCache.Store (traceClient (.error RedisErr.Nil) none) headerCodec (fun _ => 0) []
        ⟨6999999999⟩ ⟨7000000002⟩ "k" emptyMsg ⟨1000000000⟩ ⟨7000000000⟩
      = ([Call.set "k" [0, 0, 0, 0, 0, 0, 0, 1, 0, 0, 0, 0, 0, 0, 0, 7,
                        0, 0, 0, 0, 0, 0, 0, 0, 0, 0, 0, 0] (-2)], none) := by
  refine ⟨rfl, rfl⟩

/-- C7, amended. For every `Store` call that is not skipped (`now ≤ expires`
at the first clock reading) and whose message packs, the only backend call is
one `Set`, for the given key, with the packed record as value and the TTL
`expires.Sub(now2)`, where `now2` is the second clock reading; `Store` returns
that call's error. This TTL is `expires − now2` in nanoseconds whenever that
fits a `Duration`. It is strictly positive exactly when `now2 < expires`, and
it is never negative when the second reading equals the first. -/
theorem C7_store_issues_one_set {Msg : Type} (codec : WireCodec Msg) (junk : Nat → Byte)
    (now now2 : Time) (key : String) (v : Msg) (stored expires : Time) (w : List Byte)
    (hpack : codec.Pack v = .ok w) (hnow : now.ns ≤ expires.ns) :
    ∃ data, packRedisData codec junk stored expires v = .ok data ∧
      (∀ (σ : Type) (client : Client σ) (s : σ),
        RedisCache.Store client codec junk s now now2 key v stored expires
          = ((client.Set s key data (expires.Sub now2)).1,
             (client.Set s key data (expires.Sub now2)).2.map Error.redis)) ∧
      (∀ (getReply : Except RedisErr (List Byte)) (setReply : Option RedisErr) (s : List Call),
        RedisCache.Store (traceClient getReply setReply) codec junk s now now2 key v stored expires
          = (s ++ [Call.set key data (expires.Sub now2)], setReply.map Error.redis)) ∧
      (-9223372036854775808 ≤ expires.ns - now2.ns → expires.ns - now2.ns ≤ 9223372036854775807 →
        expires.Sub now2 = expires.ns - now2.ns) ∧
      (0 < expires.Sub now2 ↔ now2.ns < expires.ns) ∧
      (now2 = now → 0 ≤ expires.Sub now2) := by
  refine ⟨_, packRedisData_ok codec junk stored expires v w hpack, ?_, ?_, ?_, ?_, ?_⟩
  · intro σ client s
    exact Store_set client codec junk s now now2 key v stored expires w hpack hnow
  · intro getReply setReply s
    rw [Store_set _ codec junk s now now2 key v stored expires w hpack hnow]
    rfl
  · intro h1 h2
    unfold Time.Sub
    split_ifs <;> omega
  · unfold Time.Sub
    split_ifs <;> omega
  · intro h
    subst h
    unfold Time.Sub
    split_ifs <;> omega

/-- C7 amended, at `stored = 1 s`, `expires = 7 s`, clock readings `2 s` and
`2.5 s`: one set with TTL 4.5 s. -/
theorem C7_store_issues_one_set_witness :
    ∃ data, packRedisData headerCodec (fun _ => 0) ⟨1000000000⟩ ⟨7000000000⟩ emptyMsg
        = .ok data ∧
      (∀ (σ : Type) (client : Client σ) (s : σ),
        RedisCache.Store client headerCodec (fun _ => 0) s ⟨2000000000⟩ ⟨2500000000⟩ "k"
            emptyMsg ⟨1000000000⟩ ⟨7000000000⟩
          = ((client.Set s "k" data (Time.Sub ⟨7000000000⟩ ⟨2500000000⟩)).1,
             (client.Set s "k" data (Time.Sub ⟨7000000000⟩ ⟨2500000000⟩)).2.map Error.redis)) ∧
      (∀ (getReply : Except RedisErr (List Byte)) (setReply : Option RedisErr) (s : List Call),
        RedisCache.Store (traceClient getReply setReply) headerCodec (fun _ => 0) s
            ⟨2000000000⟩ ⟨2500000000⟩ "k" emptyMsg ⟨1000000000⟩ ⟨7000000000⟩
          = (s ++ [Call.set "k" data (Time.Sub ⟨7000000000⟩ ⟨2500000000⟩)],
             setReply.map Error.redis)) ∧
      (-9223372036854775808 ≤ (⟨7000000000⟩ : Time).ns - (⟨2500000000⟩ : Time).ns →
        (⟨7000000000⟩ : Time).ns - (⟨2500000000⟩ : Time).ns ≤ 9223372036854775807 →
        Time.Sub ⟨7000000000⟩ ⟨2500000000⟩
          = (⟨7000000000⟩ : Time).ns - (⟨2500000000⟩ : Time).ns) ∧
      (0 < Time.Sub ⟨7000000000⟩ ⟨2500000000⟩
        ↔ (⟨2500000000⟩ : Time).ns < (⟨7000000000⟩ : Time).ns) ∧
      ((⟨2500000000⟩ : Time) = ⟨2000000000⟩ → 0 ≤ Time.Sub ⟨7000000000⟩ ⟨2500000000⟩) :=
  C7_store_issues_one_set headerCodec (fun _ => 0) ⟨2000000000⟩ ⟨2500000000⟩ "k" emptyMsg
    ⟨1000000000⟩ ⟨7000000000⟩ emptyMsg rfl (by decide)

/-! ## C8: a miss is not an error -/

/-- C8. When the backend `Get` fails, `RedisCache.Get` returns a nil message
and zero timestamps for either value of `allowExpired`: with nil error when
the backend error is `redis.Nil`, and with the backend's error otherwise. -/
theorem C8_get_miss_is_not_an_error {σ Msg : Type} (client : Client σ) (codec : WireCodec Msg)
    (s s1 : σ) (now : Time) (key : String) (allowExpired : Bool) (e : RedisErr)
    (hget : client.Get s key = (s1, .error e)) :
    (e = RedisErr.Nil →
      RedisCache.Get client codec s now key allowExpired
        = (s1, ⟨none, Time.zero, Time.zero, none⟩)) ∧
    (e ≠ RedisErr.Nil →
      RedisCache.Get client codec s now key allowExpired
        = (s1, ⟨none, Time.zero, Time.zero, some (Error.redis e)⟩)) := by
  constructor
  · intro h
    simp only [RedisCache.Get, hget, h, if_true, GetResult.failed]
  · intro h
    simp only [RedisCache.Get, hget, h, if_false, GetResult.failed]

/-- C8 at the in-memory backend holding nothing: the lookup answers
`redis.Nil`. -/
theorem C8_get_miss_is_not_an_error_witness :
    RedisCache.Get memClient headerCodec [] ⟨0⟩ "k" true
      = ([], ⟨none, Time.zero, Time.zero, none⟩) ∧
    RedisCache.Get (traceClient (.error (RedisErr.other "i/o timeout")) none) headerCodec []
        ⟨0⟩ "k" false
      = ([Call.get "k"],
         ⟨none, Time.zero, Time.zero, some (Error.redis (RedisErr.other "i/o timeout"))⟩) :=
  ⟨(C8_get_miss_is_not_an_error memClient headerCodec [] [] ⟨0⟩ "k" true RedisErr.Nil rfl).1 rfl,
   (C8_get_miss_is_not_an_error (traceClient (.error (RedisErr.other "i/o timeout")) none)
      headerCodec [] [Call.get "k"] ⟨0⟩ "k" false (RedisErr.other "i/o timeout") rfl).2
      (by decide)⟩

/-! ## C9: a corrupt record is an error -/

/-- C9. When the backend value is shorter than sixteen bytes, or its bytes
16.. are rejected by the wire decoder, `RedisCache.Get` returns, for every
`allowExpired` and every clock reading, a nil message, zero timestamps and the
error `failed to unpack redis data: ...` that wraps the error of
`unpackRedisValue` (the too-short error, respectively the decoder's error). -/
theorem C9_get_corrupt_record_is_error {σ Msg : Type} (client : Client σ)
    (codec : WireCodec Msg) (s s1 : σ) (now : Time) (key : String) (allowExpired : Bool)
    (b : List Byte) (hget : client.Get s key = (s1, .ok b))
    (hbad : b.length < 16 ∨ ∃ e, codec.Unpack (b.drop 16) = .error e) :
    ∃ uerr, (unpackRedisValue codec b).err = some uerr ∧
      RedisCache.Get client codec s now key allowExpired
        = (s1, ⟨none, Time.zero, Time.zero, some (Error.failedToUnpack uerr)⟩) ∧
      (Error.failedToUnpack uerr).Unwrap = some uerr ∧
      (b.length < 16 → uerr = Error.tooShort) ∧
      (∀ e, 16 ≤ b.length → codec.Unpack (b.drop 16) = .error e → uerr = Error.wire e) := by
  rw [Get_value client codec s s1 now key allowExpired b hget]
  by_cases hlen : b.length < 16
  · refine ⟨Error.tooShort, ?_, ?_, rfl, fun _ => rfl, ?_⟩
    · simp only [unpackRedisValue, hlen, if_true]
    · simp only [unpackRedisValue, hlen, if_true, GetResult.failed]
    · intro e h16
      omega
  · have h16 : 16 ≤ b.length := by omega
    rcases hbad with h | ⟨e, he⟩
    · exact absurd h hlen
    · refine ⟨Error.wire e, ?_, ?_, rfl, fun h => absurd h hlen, ?_⟩
      · rw [unpackRedisValue_long codec b h16, he]
      · rw [unpackRedisValue_long codec b h16, he]
        rfl
      · intro e' _ he'
        rw [he] at he'
        injection he' with he'
        rw [he']

/-- C9 at a fifteen-byte value, read with `allowExpired = true`. -/
theorem C9_get_corrupt_record_is_error_witness :
    ∃ uerr, (unpackRedisValue headerCodec
        [0, 0, 0, 0, 0, 0, 0, 1, 0, 0, 0, 0, 0, 0, 0]).err = some uerr ∧
      RedisCache.Get
          (traceClient (.ok [0, 0, 0, 0, 0, 0, 0, 1, 0, 0, 0, 0, 0, 0, 0]) none)
          headerCodec [] ⟨9000000000⟩ "k" true
        = ([Call.get "k"], ⟨none, Time.zero, Time.zero, some (Error.failedToUnpack uerr)⟩) ∧
      (Error.failedToUnpack uerr).Unwrap = some uerr ∧
      (([0, 0, 0, 0, 0, 0, 0, 1, 0, 0, 0, 0, 0, 0, 0] : List Byte).length < 16 →
        uerr = Error.tooShort) ∧
      (∀ e, 16 ≤ ([0, 0, 0, 0, 0, 0, 0, 1, 0, 0, 0, 0, 0, 0, 0] : List Byte).length →
        headerCodec.Unpack (List.drop 16 [0, 0, 0, 0, 0, 0, 0, 1, 0, 0, 0, 0, 0, 0, 0])
          = .error e → uerr = Error.wire e) :=
  C9_get_corrupt_record_is_error
    (traceClient (.ok [0, 0, 0, 0, 0, 0, 0, 1, 0, 0, 0, 0, 0, 0, 0]) none)
    headerCodec [] [Call.get "k"] ⟨9000000000⟩ "k" true
    [0, 0, 0, 0, 0, 0, 0, 1, 0, 0, 0, 0, 0, 0, 0] rfl (Or.inl (by decide))

/-! ## C10: Get with `allowExpired` -/

/-- C10. For a backend value that unpacks to `(stored, expires, m)`, `Get`
with `allowExpired = true` returns `(m, stored, expires)` with nil error at
every clock reading. -/
theorem C10_get_allow_expired {σ Msg : Type} (client : Client σ) (codec : WireCodec Msg)
    (s s1 : σ) (now : Time) (key : String) (b : List Byte) (stored expires : Time) (m : Msg)
    (hget : client.Get s key = (s1, .ok b))
    (hrec : unpackRedisValue codec b = ⟨stored, expires, some m, none⟩) :
    RedisCache.Get client codec s now key true = (s1, ⟨some m, stored, expires, none⟩) := by
  rw [Get_value client codec s s1 now key true b hget, hrec]
  simp

/-- C10 at a record that expired at `100 s`, read at `10^6 s`. -/
theorem C10_get_allow_expired_witness :
    RedisCache.Get
        (traceClient (.ok [0, 0, 0, 0, 0, 0, 0, 40, 0, 0, 0, 0, 0, 0, 0, 100,
                           0, 0, 0, 0, 0, 0, 0, 0, 0, 0, 0, 0]) none)
        headerCodec [] ⟨1000000000000000⟩ "k" true
      = ([Call.get "k"], ⟨some emptyMsg, ⟨40000000000⟩, ⟨100000000000⟩, none⟩) :=
  C10_get_allow_expired
    (traceClient (.ok [0, 0, 0, 0, 0, 0, 0, 40, 0, 0, 0, 0, 0, 0, 0, 100,
                       0, 0, 0, 0, 0, 0, 0, 0, 0, 0, 0, 0]) none)
    headerCodec [] [Call.get "k"] ⟨1000000000000000⟩ "k"
    [0, 0, 0, 0, 0, 0, 0, 40, 0, 0, 0, 0, 0, 0, 0, 100,
     0, 0, 0, 0, 0, 0, 0, 0, 0, 0, 0, 0]
    ⟨40000000000⟩ ⟨100000000000⟩ emptyMsg rfl rfl

end redis_cache

namespace redis_cache

/-! ## C11: expiration time against stored time -/

/-- C11, as stated, fails: nothing compares the two timestamps. A record
stored at 10 s that expires at 5 s is packed, written by `Store` at
`now = 1 s`, unpacked without error and returned by `Get`. -/
theorem C11_expiration_before_stored :
    (⟨5000000000⟩ : Time).ns < (⟨10000000000⟩ : Time).ns ∧
    packRedisData headerCodec (fun _ => 0) ⟨10000000000⟩ ⟨5000000000⟩ emptyMsg
      = .ok [0, 0, 0, 0, 0, 0, 0, 10, 0, 0, 0, 0, 0, 0, 0, 5,
             0, 0, 0, 0, 0, 0, 0, 0, 0, 0, 0, 0] ∧
    RedisCache.Store (traceClient (.error RedisErr.Nil) none) headerCodec (fun _ => 0) []
        ⟨1000000000⟩ ⟨1000000000⟩ "k" emptyMsg ⟨10000000000⟩ ⟨5000000000⟩
      = ([Call.set "k" [0, 0, 0, 0, 0, 0, 0, 10, 0, 0, 0, 0, 0, 0, 0, 5,
                        0, 0, 0, 0, 0, 0, 0, 0, 0, 0, 0, 0] 4000000000], none) ∧
    unpackRedisValue headerCodec
        [0, 0, 0, 0, 0, 0, 0, 10, 0, 0, 0, 0, 0, 0, 0, 5,
         0, 0, 0, 0, 0, 0, 0, 0, 0, 0, 0, 0]
      = ⟨⟨10000000000⟩, ⟨5000000000⟩, some emptyMsg, none⟩ ∧
    RedisCache.Get
        (traceClient (.ok [0, 0, 0, 0, 0, 0, 0, 10, 0, 0, 0, 0, 0, 0, 0, 5,
                           0, 0, 0, 0, 0, 0, 0, 0, 0, 0, 0, 0]) none)
        headerCodec [] ⟨1000000000⟩ "k" false
      = ([Call.get "k"], ⟨some emptyMsg, ⟨10000000000⟩, ⟨5000000000⟩, none⟩) := by
  refine ⟨by decide, rfl, rfl, rfl, rfl⟩

/-- C11, amended. The order of the two timestamps is preserved, not
established: when the caller passes `stored ≤ expires` (with Unix seconds that
fit `int64`) and the message packs, the record that `packRedisData` emits and
`Store` writes holds seconds `s ≤ e`, and `unpackRedisValue` and `Get` (for
either flag and any clock reading, on a backend that holds the record) return
an expiration timestamp that is not earlier than the stored timestamp. -/
theorem C11_order_preserved {σ Msg : Type} (client : Client σ) (codec : WireCodec Msg)
    (junk : Nat → Byte) (stored expires : Time) (m : Msg) (w : List Byte)
    (hpack : codec.Pack m = .ok w) (horder : stored.ns ≤ expires.ns)
    (hlow : -9223372036854775808 ≤ stored.ns / 1000000000)
    (hhigh : expires.ns / 1000000000 < 9223372036854775808) :
    ∃ data, packRedisData codec junk stored expires m = .ok data ∧
      (∀ (s : σ) (now now2 : Time) (key : String), now.ns ≤ expires.ns →
        RedisCache.Store client codec junk s now now2 key m stored expires
          = ((client.Set s key data (expires.Sub now2)).1,
             (client.Set s key data (expires.Sub now2)).2.map Error.redis)) ∧
      int64 (BigEndian.Uint64 (data.take 8)) ≤ int64 (BigEndian.Uint64 ((data.drop 8).take 8)) ∧
      (unpackRedisValue codec data).storedTime.ns
        ≤ (unpackRedisValue codec data).expirationTime.ns ∧
      (∀ (s s1 : σ) (now : Time) (key : String) (allowExpired : Bool),
        client.Get s key = (s1, .ok data) →
        (RedisCache.Get client codec s now key allowExpired).2.storedTime.ns
          ≤ (RedisCache.Get client codec s now key allowExpired).2.expirationTime.ns) := by
  have hsec : stored.Unix ≤ expires.Unix := by
    have h1 : stored.ns / 1000000000 ≤ expires.ns / 1000000000 := by omega
    unfold Time.Unix
    rw [wrapInt64_of_range _ hlow (by omega), wrapInt64_of_range _ (by omega) hhigh]
    exact h1
  have d8 : (be64 (uint64 stored.Unix) ++ (be64 (uint64 expires.Unix) ++ w)).drop 8
      = be64 (uint64 expires.Unix) ++ w := List.drop_left' (be64_length _)
  have i1 := int64_Uint64_be64_uint64_Unix stored []
  have i2 := int64_Uint64_be64_uint64_Unix expires []
  rw [List.append_nil] at i1 i2
  have hun : (unpackRedisValue codec
      (be64 (uint64 stored.Unix) ++ (be64 (uint64 expires.Unix) ++ w))).storedTime.ns
      ≤ (unpackRedisValue codec
      (be64 (uint64 stored.Unix) ++ (be64 (uint64 expires.Unix) ++ w))).expirationTime.ns := by
    rw [unpackRedisValue_packed]
    cases codec.Unpack w with
    | error e => exact le_refl _
    | ok m' =>
      simp only [time.Unix]
      omega
  refine ⟨_, packRedisData_ok codec junk stored expires m w hpack, ?_, ?_, hun, ?_⟩
  · intro s now now2 key hnow
    exact Store_set client codec junk s now now2 key m stored expires w hpack hnow
  · rw [List.take_left' (be64_length _), d8, List.take_left' (be64_length _), i1, i2]
    exact hsec
  · intro s s1 now key allowExpired hget
    rw [Get_value client codec s s1 now key allowExpired _ hget]
    cases herr : (unpackRedisValue codec
        (be64 (uint64 stored.Unix) ++ (be64 (uint64 expires.Unix) ++ w))).err with
    | some e => exact le_refl _
    | none =>
      by_cases hx : (!allowExpired && (unpackRedisValue codec
          (be64 (uint64 stored.Unix) ++ (be64 (uint64 expires.Unix) ++ w))).expirationTime.Before
          now) = true
      · simp only [hx, if_true]
        exact le_refl _
      · simp only [hx]
        exact hun

/-- C11 amended, at a record stored 1.5 s before the epoch that expires
61.25 s after it. -/
theorem C11_order_preserved_witness :
    ∃ data, packRedisData headerCodec (fun _ => 0) ⟨-1500000000⟩ ⟨61250000000⟩ emptyMsg
        = .ok data ∧
      (∀ (s : List (String × List Byte)) (now now2 : Time) (key : String),
        now.ns ≤ (⟨61250000000⟩ : Time).ns →
        RedisCache.Store memClient headerCodec (fun _ => 0) s now now2 key emptyMsg
            ⟨-1500000000⟩ ⟨61250000000⟩
          = ((memClient.Set s key data (Time.Sub ⟨61250000000⟩ now2)).1,
             (memClient.Set s key data (Time.Sub ⟨61250000000⟩ now2)).2.map Error.redis)) ∧
      int64 (BigEndian.Uint64 (data.take 8)) ≤ int64 (BigEndian.Uint64 ((data.drop 8).take 8)) ∧
      (unpackRedisValue headerCodec data).storedTime.ns
        ≤ (unpackRedisValue headerCodec data).expirationTime.ns ∧
      (∀ (s s1 : List (String × List Byte)) (now : Time) (key : String) (allowExpired : Bool),
        memClient.Get s key = (s1, .ok data) →
        (RedisCache.Get memClient headerCodec s now key allowExpired).2.storedTime.ns
          ≤ (RedisCache.Get memClient headerCodec s now key allowExpired).2.expirationTime.ns) :=
  C11_order_preserved memClient headerCodec (fun _ => 0) ⟨-1500000000⟩ ⟨61250000000⟩
    emptyMsg emptyMsg rfl (by decide) (by decide) (by decide)

end redis_cache

namespace executable_seq

/-! ## Lemmas on the interpreter -/

theorem exec_execRef (scope : SkipScope) (reg : Registry) (tag : String) (st : State) :
    exec scope reg (.execRef tag) st = execPlugin reg tag st := by
  rw [exec]

theorem exec_sequence (scope : SkipScope) (reg : Registry) (children : List Node) (st : State) :
    exec scope reg (.sequence children) st = execList scope reg children st := by
  rw [exec]

theorem exec_conditional (scope : SkipScope) (reg : Registry) (mode : Mode)
    (tests : List MatcherRef) (thenB : Node) (elseB : Option Node) (st : State) :
    exec scope reg (.conditional mode tests thenB elseB) st =
      match evalTests reg mode tests st with
      | (st1, .error e) => (st1, .err e)
      | (st1, .ok true) => leaveBranch scope (exec scope reg thenB st1)
      | (st1, .ok false) => leaveBranch scope (execOpt scope reg elseB st1) := by
  rw [exec]

theorem execList_nil (scope : SkipScope) (reg : Registry) (st : State) :
    execList scope reg [] st = (st, .done) := by
  rw [execList]

theorem execList_cons (scope : SkipScope) (reg : Registry) (c : Node) (cs : List Node)
    (st : State) :
    execList scope reg (c :: cs) st =
      match exec scope reg c st with
      | (st1, .done) => execList scope reg cs st1
      | (st1, sig) => (st1, sig) := by
  rw [execList]

/-- A Sequence whose first children finish runs on with the rest. -/
theorem execList_append_done (scope : SkipScope) (reg : Registry) (pre rest : List Node)
    (st st1 : State) (hpre : execList scope reg pre st = (st1, .done)) :
    execList scope reg (pre ++ rest) st = execList scope reg rest st1 := by
  induction pre generalizing st with
  | nil =>
    rw [execList_nil] at hpre
    cases hpre
    rfl
  | cons c cs ih =>
    rw [execList_cons] at hpre
    rw [List.cons_append, execList_cons]
    cases hc : exec scope reg c st with
    | mk st2 sig =>
      rw [hc] at hpre
      cases sig with
      | done => exact ih st2 hpre
      | skip => cases hpre
      | err e => cases hpre

/-- A Sequence stops at the first child that signals Skip. -/
theorem execList_cons_skip (scope : SkipScope) (reg : Registry) (c : Node) (cs : List Node)
    (st st1 : State) (hc : exec scope reg c st = (st1, .skip)) :
    execList scope reg (c :: cs) st = (st1, .skip) := by
  rw [execList_cons, hc]

/-- A Sequence stops at the first child that fails. -/
theorem execList_cons_err (scope : SkipScope) (reg : Registry) (c : Node) (cs : List Node)
    (st st1 : State) (e : Err) (hc : exec scope reg c st = (st1, .err e)) :
    execList scope reg (c :: cs) st = (st1, .err e) := by
  rw [execList_cons, hc]

/-- A matcher reads the context only: its answer does not depend on the
invocation record, and it appends its own invocations to the record. -/
theorem evalMatcher_frame (reg : Registry) (m : MatcherRef) (ctx : Context)
    (t : List Invocation) :
    evalMatcher reg m ⟨ctx, t⟩ =
      (⟨ctx, t ++ (evalMatcher reg m ⟨ctx, []⟩).1.trace⟩, (evalMatcher reg m ⟨ctx, []⟩).2) := by
  unfold evalMatcher
  cases Lookup reg m.tag with
  | none => simp
  | some p =>
    rcases p with ⟨pm, pe⟩
    cases pm with
    | none => simp
    | some f =>
      cases hf : f ctx with
      | mk b oe =>
        cases oe with
        | none => simp [hf]
        | some e => simp [hf]

/-- A matcher that answers `v` at `ctx`, seen from a state with any record. -/
theorem evalMatcher_ok (reg : Registry) (m : MatcherRef) (st : State) (v : Bool)
    (h : evalMatcher reg m ⟨st.ctx, []⟩ = (⟨st.ctx, [.matcher m.tag]⟩, .ok v)) :
    evalMatcher reg m st = (⟨st.ctx, st.trace ++ [.matcher m.tag]⟩, .ok v) := by
  have hf := evalMatcher_frame reg m st.ctx st.trace
  rw [h] at hf
  exact hf

/-- A matcher that fails with `e` at `ctx`, seen from a state with any
record. -/
theorem evalMatcher_error (reg : Registry) (m : MatcherRef) (st : State) (e : Err)
    (h : evalMatcher reg m ⟨st.ctx, []⟩ = (⟨st.ctx, [.matcher m.tag]⟩, .error e)) :
    evalMatcher reg m st = (⟨st.ctx, st.trace ++ [.matcher m.tag]⟩, .error e) := by
  have hf := evalMatcher_frame reg m st.ctx st.trace
  rw [h] at hf
  exact hf

/-- In `Or` mode a first matcher that answers `true` settles the tests. -/
theorem evalTests_or_first (reg : Registry) (m1 : MatcherRef) (rest : List MatcherRef)
    (st : State)
    (h1 : evalMatcher reg m1 ⟨st.ctx, []⟩ = (⟨st.ctx, [.matcher m1.tag]⟩, .ok true)) :
    evalTests reg .Or (m1 :: rest) st = (⟨st.ctx, st.trace ++ [.matcher m1.tag]⟩, .ok true) := by
  rw [evalTests, evalMatcher_ok reg m1 st true h1]
  rfl

/-- Tests that do not settle the result are all evaluated; a matcher error
right after them ends the evaluation. -/
theorem evalTests_abort (reg : Registry) (mode : Mode) (pre : List MatcherRef) (m : MatcherRef)
    (post : List MatcherRef) (st : State) (e : Err)
    (hpre : ∀ r ∈ pre, evalMatcher reg r ⟨st.ctx, []⟩
      = (⟨st.ctx, [.matcher r.tag]⟩, .ok (decide (mode = Mode.And))))
    (hm : evalMatcher reg m ⟨st.ctx, []⟩ = (⟨st.ctx, [.matcher m.tag]⟩, .error e)) :
    evalTests reg mode (pre ++ m :: post) st
      = (⟨st.ctx, st.trace ++ (pre ++ [m]).map (fun r => Invocation.matcher r.tag)⟩,
         .error e) := by
  induction pre generalizing st with
  | nil =>
    rw [List.nil_append, evalTests, evalMatcher_error reg m st e hm]
    rfl
  | cons r pre ih =>
    have hr := hpre r (List.mem_cons_self r pre)
    have ih2 := ih ⟨st.ctx, st.trace ++ [.matcher r.tag]⟩
      (fun r2 h2 => hpre r2 (List.mem_cons_of_mem r h2)) hm
    rw [List.cons_append, evalTests, evalMatcher_ok reg r st _ hr]
    cases mode with
    | Or =>
      simp only [reduceCtorEq, decide_False, Bool.false_eq_true, if_false]
      rw [ih2]
      simp
    | And =>
      simp only [decide_True, if_true]
      rw [ih2]
      simp

/-- The root turns Skip into success. -/
theorem ExecChainNode_skip (scope : SkipScope) (reg : Registry) (root : Node)
    (st st1 : State) (h : exec scope reg root st = (st1, .skip)) :
    ExecChainNode scope reg root st = (st1, none) := by
  unfold ExecChainNode
  rw [h]

/-- The root reports an error as it is. -/
theorem ExecChainNode_err (scope : SkipScope) (reg : Registry) (root : Node)
    (st st1 : State) (e : Err) (h : exec scope reg root st = (st1, .err e)) :
    ExecChainNode scope reg root st = (st1, some e) := by
  unfold ExecChainNode
  rw [h]

/-- Seen from the root, a branch that is left through `leaveBranch` gives the
same result as the branch itself. -/
theorem ExecChainNode_leaveBranch (scope : SkipScope) (r : State × Signal) :
    (match leaveBranch scope r with
      | (st1, .err e) => (st1, some e)
      | (st1, _) => (st1, (none : Option Err)))
    = (match r with
      | (st1, .err e) => (st1, some e)
      | (st1, _) => (st1, (none : Option Err))) := by
  rcases r with ⟨st1, sig⟩
  cases scope <;> cases sig <;> rfl

/-- A Sequence with one child behaves as the child. -/
theorem execList_singleton (scope : SkipScope) (reg : Registry) (c : Node) (st : State) :
    execList scope reg [c] st = exec scope reg c st := by
  rw [execList_cons]
  cases hc : exec scope reg c st with
  | mk st1 sig =>
    cases sig with
    | done => simp only [execList_nil]
    | skip => rfl
    | err e => rfl

/-! ## The repository's test on the model -/

/-- Every subtest of `Test_ECS` passes when a Skip ends the whole pipeline. -/
theorem Test_ECS_passes : ∀ tt ∈ tests, runTest .pipeline tt = true := by
  decide

/-- The subtest `test early return in if branch` fails when a Conditional
absorbs the Skip raised in its branch: the pipeline then returns `eErr`. -/
theorem Test_ECS_rejects_branch_scope :
    tests.map (runTest .branch)
      = [true, true, true, true, true, true, true, true, true, true, true, true, false] := by
  decide

end executable_seq

namespace executable_seq

/-! ## C12: short circuit in `Or` mode -/

/-- An `if` mapping with an `exec` child compiles to an `Or` Conditional
whose tests are the list elements, each with its `!` taken off. -/
theorem parse_if_mapping (s1 : String) (items : List Config) (c : Config)
    (ms : List MatcherRef) (n : Node) (hitems : parseTestItems items = .ok ms)
    (hc : ParseExecutableNode c = .ok n) :
    ParseExecutableNode (.map [("if", .seq (.str s1 :: items)), ("exec", c)])
      = .ok (.conditional .Or (parseMatcherRef s1 :: ms) n none) := by
  have ht : parseTests (.seq (.str s1 :: items)) = .ok (parseMatcherRef s1 :: ms) := by
    simp only [parseTests, parseTestItems, hitems]
  have h1 : ("exec" = "if") = False := by decide
  have h2 : ("exec" = "if_and") = False := by decide
  rw [ParseExecutableNode, parseMap]
  simp only [if_true, ht]
  rw [parseMap]
  simp only [h1, h2, if_false, if_true, hc]
  rw [parseMap]
  rfl

/-- C12. In `Or` mode, when the first matcher of the `if` list, after its `!`
negation, matches, the tests are settled after that one invocation: the
Conditional runs its then-branch from there and the pipeline made of this
Conditional returns what the branch returns, whatever matchers follow in the
list (none of them is invoked, so none of their errors surfaces). This holds
for either reading of where a Skip stops. -/
theorem C12_or_short_circuit (scope : SkipScope) (reg : Registry) (m1 : MatcherRef)
    (rest : List MatcherRef) (thenB : Node) (elseB : Option Node) (st : State)
    (h1 : evalMatcher reg m1 ⟨st.ctx, []⟩ = (⟨st.ctx, [.matcher m1.tag]⟩, .ok true)) :
    evalTests reg .Or (m1 :: rest) st = (⟨st.ctx, st.trace ++ [.matcher m1.tag]⟩, .ok true) ∧
    exec scope reg (.conditional .Or (m1 :: rest) thenB elseB) st
      = leaveBranch scope (exec scope reg thenB ⟨st.ctx, st.trace ++ [.matcher m1.tag]⟩) ∧
    ExecChainNode scope reg (.sequence [.conditional .Or (m1 :: rest) thenB elseB]) st
      = ExecChainNode scope reg thenB ⟨st.ctx, st.trace ++ [.matcher m1.tag]⟩ := by
  have ht := evalTests_or_first reg m1 rest st h1
  have he : exec scope reg (.conditional .Or (m1 :: rest) thenB elseB) st
      = leaveBranch scope (exec scope reg thenB ⟨st.ctx, st.trace ++ [.matcher m1.tag]⟩) := by
    rw [exec_conditional, ht]
  refine ⟨ht, he, ?_⟩
  unfold ExecChainNode
  rw [exec_sequence, execList_singleton, he]
  exact ExecChainNode_leaveBranch scope _

/-- C12 on the subtest `test matcher short circuit`: `if: [matched,
match_err]` with `exec: exec_target` returns nil with the response of
`exec_target`, after invoking `matched` and `exec_target` only. -/
theorem C12_or_short_circuit_witness :
    (evalTests testRegistry .Or [⟨"matched", false⟩, ⟨"match_err", false⟩] newState
        = (⟨newState.ctx, newState.trace ++ [.matcher "matched"]⟩, .ok true) ∧
      exec .pipeline testRegistry
          (.conditional .Or [⟨"matched", false⟩, ⟨"match_err", false⟩] (.execRef "exec_target")
            none) newState
        = leaveBranch .pipeline (exec .pipeline testRegistry (.execRef "exec_target")
            ⟨newState.ctx, newState.trace ++ [.matcher "matched"]⟩) ∧
      ExecChainNode .pipeline testRegistry
          (.sequence [.conditional .Or [⟨"matched", false⟩, ⟨"match_err", false⟩]
            (.execRef "exec_target") none]) newState
        = ExecChainNode .pipeline testRegistry (.execRef "exec_target")
            ⟨newState.ctx, newState.trace ++ [.matcher "matched"]⟩) ∧
    ParseExecutableNode
        (.seq [.map [("if", .seq [.str "matched", .str "match_err"]),
                     ("exec", .str "exec_target")]])
      = .ok (.sequence [.conditional .Or [⟨"matched", false⟩, ⟨"match_err", false⟩]
          (.execRef "exec_target") none]) ∧
    ExecChainNode .pipeline testRegistry (.execRef "exec_target")
        ⟨newState.ctx, newState.trace ++ [.matcher "matched"]⟩
      = (⟨⟨⟨0⟩, some target⟩, [.matcher "matched", .executable "exec_target"]⟩, none) :=
  ⟨C12_or_short_circuit .pipeline testRegistry ⟨"matched", false⟩ [⟨"match_err", false⟩]
      (.execRef "exec_target") none newState rfl,
   rfl, rfl⟩

/-! ## C13: a matcher error aborts the Conditional -/

/-- C13. In either mode, when every test before a matcher leaves the result
open (`false` in `Or` mode, `true` in `And` mode) and that matcher returns an
error, the Conditional fails with that error; only the matchers up to and
including the failing one have been invoked, no branch has run and the
context, its response slot included, is as it was. A pipeline that starts
with this Conditional returns the matcher's error. This holds for either
reading of where a Skip stops. -/
theorem C13_matcher_error_aborts (scope : SkipScope) (reg : Registry) (mode : Mode)
    (pre : List MatcherRef) (m : MatcherRef) (post : List MatcherRef) (thenB : Node)
    (elseB : Option Node) (siblings : List Node) (st : State) (e : Err)
    (hpre : ∀ r ∈ pre, evalMatcher reg r ⟨st.ctx, []⟩
      = (⟨st.ctx, [.matcher r.tag]⟩, .ok (decide (mode = Mode.And))))
    (hm : evalMatcher reg m ⟨st.ctx, []⟩ = (⟨st.ctx, [.matcher m.tag]⟩, .error e)) :
    exec scope reg (.conditional mode (pre ++ m :: post) thenB elseB) st
      = (⟨st.ctx, st.trace ++ (pre ++ [m]).map (fun r => Invocation.matcher r.tag)⟩, .err e) ∧
    ExecChainNode scope reg
        (.sequence (.conditional mode (pre ++ m :: post) thenB elseB :: siblings)) st
      = (⟨st.ctx, st.trace ++ (pre ++ [m]).map (fun r => Invocation.matcher r.tag)⟩, some e) := by
  have he : exec scope reg (.conditional mode (pre ++ m :: post) thenB elseB) st
      = (⟨st.ctx, st.trace ++ (pre ++ [m]).map (fun r => Invocation.matcher r.tag)⟩,
         .err e) := by
    rw [exec_conditional, evalTests_abort reg mode pre m post st e hpre hm]
  refine ⟨he, ?_⟩
  apply ExecChainNode_err
  rw [exec_sequence]
  exact execList_cons_err scope reg _ siblings st _ e he

/-- C13 on the subtests `test if err` (`if: [not_matched, match_err]`) and
`test if_and err` (`if_and: [matched, match_err]`): both fail with `mErr`
and leave the response empty. -/
theorem C13_matcher_error_aborts_witness :
    (exec .pipeline testRegistry
        (.conditional .Or ([⟨"not_matched", false⟩] ++ ⟨"match_err", false⟩ :: [])
          (.execRef "exec") none) newState
      = (⟨newState.ctx, newState.trace ++
          List.map (fun r : MatcherRef => Invocation.matcher r.tag)
            ([⟨"not_matched", false⟩] ++ [⟨"match_err", false⟩])⟩, .err mErr) ∧
    ExecChainNode .pipeline testRegistry
        (.sequence (.conditional .Or ([⟨"not_matched", false⟩] ++ ⟨"match_err", false⟩ :: [])
          (.execRef "exec") none :: [])) newState
      = (⟨newState.ctx, newState.trace ++
          List.map (fun r : MatcherRef => Invocation.matcher r.tag)
            ([⟨"not_matched", false⟩] ++ [⟨"match_err", false⟩])⟩, some mErr)) ∧
    (exec .pipeline testRegistry
        (.conditional .And ([⟨"matched", false⟩] ++ ⟨"match_err", false⟩ :: [])
          (.execRef "exec") none) newState
      = (⟨newState.ctx, newState.trace ++
          List.map (fun r : MatcherRef => Invocation.matcher r.tag)
            ([⟨"matched", false⟩] ++ [⟨"match_err", false⟩])⟩, .err mErr) ∧
    ExecChainNode .pipeline testRegistry
        (.sequence (.conditional .And ([⟨"matched", false⟩] ++ ⟨"match_err", false⟩ :: [])
          (.execRef "exec") none :: [])) newState
      = (⟨newState.ctx, newState.trace ++
          List.map (fun r : MatcherRef => Invocation.matcher r.tag)
            ([⟨"matched", false⟩] ++ [⟨"match_err", false⟩])⟩, some mErr)) ∧
    ExecChainNode .pipeline testRegistry
        (.sequence [.conditional .Or [⟨"not_matched", false⟩, ⟨"match_err", false⟩]
          (.execRef "exec") none]) newState
      = (⟨⟨⟨0⟩, none⟩, [.matcher "not_matched", .matcher "match_err"]⟩, some mErr) :=
  ⟨C13_matcher_error_aborts .pipeline testRegistry .Or [⟨"not_matched", false⟩]
      ⟨"match_err", false⟩ [] (.execRef "exec") none [] newState mErr
      (by intro r hr; rw [List.mem_singleton] at hr; subst hr; rfl) rfl,
   C13_matcher_error_aborts .pipeline testRegistry .And [⟨"matched", false⟩]
      ⟨"match_err", false⟩ [] (.execRef "exec") none [] newState mErr
      (by intro r hr; rw [List.mem_singleton] at hr; subst hr; rfl) rfl,
   rfl⟩

end executable_seq

namespace executable_seq

/-! ## C14: Skip in the root sequence -/

/-- C14. When the children before an executable in the root sequence all
finish and that executable signals Skip, the pipeline returns no error and
ends in the state the executable left: the children after it are not run,
whatever they are. This holds for either reading of where a Skip stops. -/
theorem C14_skip_at_root (scope : SkipScope) (reg : Registry) (pre : List Node) (tag : String)
    (post : List Node) (st st1 st2 : State)
    (hpre : execList scope reg pre st = (st1, .done))
    (hskip : execPlugin reg tag st1 = (st2, .skip)) :
    exec scope reg (.sequence (pre ++ .execRef tag :: post)) st = (st2, .skip) ∧
    ExecChainNode scope reg (.sequence (pre ++ .execRef tag :: post)) st = (st2, none) := by
  have he : exec scope reg (.sequence (pre ++ .execRef tag :: post)) st = (st2, .skip) := by
    rw [exec_sequence, execList_append_done scope reg pre _ st st1 hpre]
    apply execList_cons_skip
    rw [exec_execRef]
    exact hskip
  exact ⟨he, ExecChainNode_skip scope reg _ st st2 he⟩

/-- C14 on the subtest `test return in main sequence`: `[exec, exec_skip,
exec_err]` returns nil after invoking `exec` and `exec_skip` only. -/
theorem C14_skip_at_root_witness :
    (exec .pipeline testRegistry
        (.sequence ([.execRef "exec"] ++ .execRef "exec_skip" :: [.execRef "exec_err"])) newState
      = (⟨⟨⟨0⟩, none⟩, [.executable "exec", .executable "exec_skip"]⟩, .skip) ∧
    ExecChainNode .pipeline testRegistry
        (.sequence ([.execRef "exec"] ++ .execRef "exec_skip" :: [.execRef "exec_err"])) newState
      = (⟨⟨⟨0⟩, none⟩, [.executable "exec", .executable "exec_skip"]⟩, none)) ∧
    ParseExecutableNode (.seq [.str "exec", .str "exec_skip", .str "exec_err"])
      = .ok (.sequence [.execRef "exec", .execRef "exec_skip", .execRef "exec_err"]) :=
  ⟨C14_skip_at_root .pipeline testRegistry [.execRef "exec"] "exec_skip" [.execRef "exec_err"]
      newState ⟨⟨⟨0⟩, none⟩, [.executable "exec"]⟩
      ⟨⟨⟨0⟩, none⟩, [.executable "exec", .executable "exec_skip"]⟩ rfl rfl,
   rfl⟩

/-! ## C15 and C16: Skip inside a branch of a Conditional -/

/-- A Conditional whose selected branch signals Skip signals Skip (when a
Skip ends the whole pipeline). -/
theorem conditional_skip (reg : Registry) (mode : Mode) (tests : List MatcherRef)
    (thenB : Node) (elseB : Option Node) (st st1 st2 : State) (b : Bool)
    (htests : evalTests reg mode tests st = (st1, .ok b))
    (hbranch : (match b with
      | true => exec .pipeline reg thenB st1
      | false => execOpt .pipeline reg elseB st1) = (st2, .skip)) :
    exec .pipeline reg (.conditional mode tests thenB elseB) st = (st2, .skip) := by
  rw [exec_conditional, htests]
  cases b with
  | true =>
    simp only at hbranch ⊢
    rw [hbranch]
    rfl
  | false =>
    simp only at hbranch ⊢
    rw [hbranch]
    rfl

/-- C15, as stated, fails on the pipeline `[{if: [matched], exec: [exec_skip,
exec_err]}, exec_err]`: the run that the repository's subtest `test early
return in if branch` accepts returns nil after invoking `matched` and
`exec_skip` only, so the `exec_err` that follows the Conditional is not run.
Under the claimed rule (the Conditional absorbs the Skip) the pipeline fails
with `eErr` and that subtest fails. -/
theorem C15_outer_sibling_not_run :
    ParseExecutableNode
        (.seq [.map [("if", .seq [.str "matched"]),
                     ("exec", .seq [.str "exec_skip", .str "exec_err"])],
               .str "exec_err"])
      = .ok (.sequence [.conditional .Or [⟨"matched", false⟩]
               (.sequence [.execRef "exec_skip", .execRef "exec_err"]) none,
             .execRef "exec_err"]) ∧
    ExecChainNode .pipeline testRegistry
        (.sequence [.conditional .Or [⟨"matched", false⟩]
           (.sequence [.execRef "exec_skip", .execRef "exec_err"]) none,
         .execRef "exec_err"]) newState
      = (⟨⟨⟨0⟩, none⟩, [.matcher "matched", .executable "exec_skip"]⟩, none) ∧
    ExecChainNode .branch testRegistry
        (.sequence [.conditional .Or [⟨"matched", false⟩]
           (.sequence [.execRef "exec_skip", .execRef "exec_err"]) none,
         .execRef "exec_err"]) newState
      = (⟨⟨⟨0⟩, none⟩,
          [.matcher "matched", .executable "exec_skip", .executable "exec_err"]⟩, some eErr) ∧
    runTest .pipeline
        ⟨"test early return in if branch",
          .seq [.map [("if", .seq [.str "matched"]),
                      ("exec", .seq [.str "exec_skip", .str "exec_err"])],
                .str "exec_err"],
          false, none⟩ = true ∧
    runTest .branch
        ⟨"test early return in if branch",
          .seq [.map [("if", .seq [.str "matched"]),
                      ("exec", .seq [.str "exec_skip", .str "exec_err"])],
                .str "exec_err"],
          false, none⟩ = false := by
  refine ⟨rfl, rfl, rfl, rfl, rfl⟩

/-- C15, amended. A Skip is not absorbed at the boundary of the Conditional
whose branch raised it: when the tests of a Conditional select a branch (the
then-branch on `true`, the else-branch on `false`) and that branch signals
Skip, the Conditional signals Skip itself, the enclosing sequence stops there
without running the siblings that follow, and the pipeline returns no
error. -/
theorem C15_conditional_passes_skip (reg : Registry) (mode : Mode) (tests : List MatcherRef)
    (thenB : Node) (elseB : Option Node) (post : List Node) (st st1 st2 : State) (b : Bool)
    (htests : evalTests reg mode tests st = (st1, .ok b))
    (hbranch : (match b with
      | true => exec .pipeline reg thenB st1
      | false => execOpt .pipeline reg elseB st1) = (st2, .skip)) :
    exec .pipeline reg (.conditional mode tests thenB elseB) st = (st2, .skip) ∧
    exec .pipeline reg (.sequence (.conditional mode tests thenB elseB :: post)) st
      = (st2, .skip) ∧
    ExecChainNode .pipeline reg (.sequence (.conditional mode tests thenB elseB :: post)) st
      = (st2, none) := by
  have he : exec .pipeline reg (.conditional mode tests thenB elseB) st = (st2, .skip) :=
    conditional_skip reg mode tests thenB elseB st st1 st2 b htests hbranch
  have hs : exec .pipeline reg (.sequence (.conditional mode tests thenB elseB :: post)) st
      = (st2, .skip) := by
    rw [exec_sequence]
    exact execList_cons_skip .pipeline reg _ post st st2 he
  exact ⟨he, hs, ExecChainNode_skip .pipeline reg _ st st2 hs⟩

/-- C15 amended, on the pipeline of the subtest `test early return in if
branch`. -/
theorem C15_conditional_passes_skip_witness :
    exec .pipeline testRegistry
        (.conditional .Or [⟨"matched", false⟩]
          (.sequence [.execRef "exec_skip", .execRef "exec_err"]) none) newState
      = (⟨⟨⟨0⟩, none⟩, [.matcher "matched", .executable "exec_skip"]⟩, .skip) ∧
    exec .pipeline testRegistry
        (.sequence (.conditional .Or [⟨"matched", false⟩]
          (.sequence [.execRef "exec_skip", .execRef "exec_err"]) none
          :: [.execRef "exec_err"])) newState
      = (⟨⟨⟨0⟩, none⟩, [.matcher "matched", .executable "exec_skip"]⟩, .skip) ∧
    ExecChainNode .pipeline testRegistry
        (.sequence (.conditional .Or [⟨"matched", false⟩]
          (.sequence [.execRef "exec_skip", .execRef "exec_err"]) none
          :: [.execRef "exec_err"])) newState
      = (⟨⟨⟨0⟩, none⟩, [.matcher "matched", .executable "exec_skip"]⟩, none) :=
  C15_conditional_passes_skip testRegistry .Or [⟨"matched", false⟩]
    (.sequence [.execRef "exec_skip", .execRef "exec_err"]) none [.execRef "exec_err"]
    newState ⟨⟨⟨0⟩, none⟩, [.matcher "matched"]⟩
    ⟨⟨⟨0⟩, none⟩, [.matcher "matched", .executable "exec_skip"]⟩ true rfl rfl

/-- C16. When the children before a Conditional finish, its tests select a
branch, the nodes of that branch before an executable finish and that
executable signals Skip, `ExecChainNode` returns no error and ends in the
state the executable left, one invocation after the state it started from:
neither the rest of the branch nor the siblings that follow the Conditional
are run, whatever they are. -/
theorem C16_skip_in_branch_ends_pipeline (reg : Registry) (pre : List Node) (mode : Mode)
    (tests : List MatcherRef) (bpre : List Node) (tag : String) (brest : List Node)
    (other : Node) (otherElse : Option Node) (post : List Node)
    (st st1 st2 st3 st4 : State) (b : Bool)
    (hpre : execList .pipeline reg pre st = (st1, .done))
    (htests : evalTests reg mode tests st1 = (st2, .ok b))
    (hbpre : execList .pipeline reg bpre st2 = (st3, .done))
    (hskip : execPlugin reg tag st3 = (st4, .skip)) :
    (b = true →
      ExecChainNode .pipeline reg
          (.sequence (pre ++ .conditional mode tests
            (.sequence (bpre ++ .execRef tag :: brest)) otherElse :: post)) st
        = (st4, none)) ∧
    (b = false →
      ExecChainNode .pipeline reg
          (.sequence (pre ++ .conditional mode tests other
            (some (.sequence (bpre ++ .execRef tag :: brest))) :: post)) st
        = (st4, none)) ∧
    st4.trace = st3.trace ++ [.executable tag] := by
  have hbr : exec .pipeline reg (.sequence (bpre ++ .execRef tag :: brest)) st2
      = (st4, .skip) := by
    rw [exec_sequence, execList_append_done .pipeline reg bpre _ st2 st3 hbpre]
    apply execList_cons_skip
    rw [exec_execRef]
    exact hskip
  have hroot : ∀ c : Node, exec .pipeline reg c st1 = (st4, .skip) →
      ExecChainNode .pipeline reg (.sequence (pre ++ c :: post)) st = (st4, none) := by
    intro c hc
    apply ExecChainNode_skip
    rw [exec_sequence, execList_append_done .pipeline reg pre _ st st1 hpre]
    exact execList_cons_skip .pipeline reg c post st1 st4 hc
  refine ⟨?_, ?_, ?_⟩
  · intro hb
    subst hb
    exact hroot _ (conditional_skip reg mode tests _ otherElse st1 st2 st4 true htests hbr)
  · intro hb
    subst hb
    apply hroot
    apply conditional_skip reg mode tests other _ st1 st2 st4 false htests
    rw [execOpt]
    exact hbr
  · unfold execPlugin at hskip
    cases hl : Lookup reg tag with
    | none => rw [hl] at hskip; cases hskip
    | some p =>
      rw [hl] at hskip
      rcases p with ⟨pm, pe⟩
      cases pe with
      | none => cases hskip
      | some f =>
        simp only [Prod.mk.injEq] at hskip
        rw [← hskip.1]

end executable_seq

namespace executable_seq

/-- C16 on the subtest `test early return in if branch`: the pipeline
`[{if: [matched], exec: [exec_skip, exec_err]}, exec_err]` returns nil after
invoking `matched` and `exec_skip` only, as the subtest expects
(`wantErr = nil`). -/
theorem C16_skip_in_branch_ends_pipeline_witness :
    ((true = true →
      ExecChainNode .pipeline testRegistry
          (.sequence ([] ++ .conditional .Or [⟨"matched", false⟩]
            (.sequence ([] ++ .execRef "exec_skip" :: [.execRef "exec_err"])) none
            :: [.execRef "exec_err"])) newState
        = (⟨⟨⟨0⟩, none⟩, [.matcher "matched", .executable "exec_skip"]⟩, none)) ∧
    (true = false →
      ExecChainNode .pipeline testRegistry
          (.sequence ([] ++ .conditional .Or [⟨"matched", false⟩] (.execRef "exec")
            (some (.sequence ([] ++ .execRef "exec_skip" :: [.execRef "exec_err"])))
            :: [.execRef "exec_err"])) newState
        = (⟨⟨⟨0⟩, none⟩, [.matcher "matched", .executable "exec_skip"]⟩, none)) ∧
    (⟨⟨⟨0⟩, none⟩, [.matcher "matched", .executable "exec_skip"]⟩ : State).trace
      = (⟨⟨⟨0⟩, none⟩, [.matcher "matched"]⟩ : State).trace ++ [.executable "exec_skip"]) ∧
    ExecChainNode .pipeline testRegistry
        (.sequence [.conditional .Or [⟨"matched", false⟩]
           (.sequence [.execRef "exec_skip", .execRef "exec_err"]) none,
         .execRef "exec_err"]) newState
      = (⟨⟨⟨0⟩, none⟩, [.matcher "matched", .executable "exec_skip"]⟩, none) :=
  ⟨C16_skip_in_branch_ends_pipeline testRegistry [] .Or [⟨"matched", false⟩] [] "exec_skip"
      [.execRef "exec_err"] (.execRef "exec") none [.execRef "exec_err"]
      newState newState ⟨⟨⟨0⟩, none⟩, [.matcher "matched"]⟩ ⟨⟨⟨0⟩, none⟩, [.matcher "matched"]⟩
      ⟨⟨⟨0⟩, none⟩, [.matcher "matched", .executable "exec_skip"]⟩ true rfl rfl rfl rfl,
   rfl⟩

end executable_seq

namespace redis_cache

/-! ## C17: the shape of a `Get` result -/

/-- C17. For every backend answer, flag and clock reading, the result of
`RedisCache.Get` has one of three shapes: an error with a nil message and
zero timestamps; no error with a nil message and zero timestamps; or no
error with a message and the two timestamps read big-endian from bytes 0..7
and 8..15 of the backend value. So a message never comes with an error, and a
nil message never comes with a non-zero timestamp. -/
theorem C17_get_result_shapes {σ Msg : Type} (client : Client σ) (codec : WireCodec Msg)
    (s : σ) (now : Time) (key : String) (allowExpired : Bool) :
    (((RedisCache.Get client codec s now key allowExpired).2.err ≠ none ∧
        (RedisCache.Get client codec s now key allowExpired).2.v = none ∧
        (RedisCache.Get client codec s now key allowExpired).2.storedTime = Time.zero ∧
        (RedisCache.Get client codec s now key allowExpired).2.expirationTime = Time.zero) ∨
      ((RedisCache.Get client codec s now key allowExpired).2.err = none ∧
        (RedisCache.Get client codec s now key allowExpired).2.v = none ∧
        (RedisCache.Get client codec s now key allowExpired).2.storedTime = Time.zero ∧
        (RedisCache.Get client codec s now key allowExpired).2.expirationTime = Time.zero) ∨
      ((RedisCache.Get client codec s now key allowExpired).2.err = none ∧
        (RedisCache.Get client codec s now key allowExpired).2.v ≠ none ∧
        ∃ b, (client.Get s key).2 = .ok b ∧ 16 ≤ b.length ∧
          (RedisCache.Get client codec s now key allowExpired).2.storedTime
            = time.Unix (int64 (BigEndian.Uint64 (b.take 8))) 0 ∧
          (RedisCache.Get client codec s now key allowExpired).2.expirationTime
            = time.Unix (int64 (BigEndian.Uint64 ((b.drop 8).take 8))) 0)) ∧
    ((RedisCache.Get client codec s now key allowExpired).2.v ≠ none →
      (RedisCache.Get client codec s now key allowExpired).2.err = none) ∧
    ((RedisCache.Get client codec s now key allowExpired).2.v = none →
      (RedisCache.Get client codec s now key allowExpired).2.storedTime = Time.zero ∧
      (RedisCache.Get client codec s now key allowExpired).2.expirationTime = Time.zero) := by
  cases hget : client.Get s key with
  | mk s1 reply =>
    cases reply with
    | error e =>
      by_cases he : e = RedisErr.Nil
      · simp [RedisCache.Get, hget, he, GetResult.failed]
      · simp [RedisCache.Get, hget, he, GetResult.failed]
    | ok b =>
      rw [Get_value client codec s s1 now key allowExpired b hget]
      by_cases hlen : b.length < 16
      · simp [unpackRedisValue, hlen, GetResult.failed]
      · have h16 : 16 ≤ b.length := by omega
        rw [unpackRedisValue_long codec b h16]
        cases hu : codec.Unpack (b.drop 16) with
        | error e => simp [GetResult.failed]
        | ok m =>
          by_cases hx : (!allowExpired &&
              (time.Unix (int64 (BigEndian.Uint64 ((b.drop 8).take 8))) 0).Before now) = true
          · simp only [hx, if_true]
            simp [GetResult.failed]
          · simp only [hx]
            simp [h16]

/-- C17 at a fresh record: it comes with a message, hence without error. -/
theorem C17_get_result_shapes_witness :
    (RedisCache.Get
        (traceClient (.ok [0, 0, 0, 0, 0, 0, 0, 40, 0, 0, 0, 0, 0, 0, 0, 100,
                           0, 0, 0, 0, 0, 0, 0, 0, 0, 0, 0, 0]) none)
        headerCodec [] ⟨1000000000⟩ "k" false).2.err = none :=
  (C17_get_result_shapes
    (traceClient (.ok [0, 0, 0, 0, 0, 0, 0, 40, 0, 0, 0, 0, 0, 0, 0, 100,
                       0, 0, 0, 0, 0, 0, 0, 0, 0, 0, 0, 0]) none)
    headerCodec [] ⟨1000000000⟩ "k" false).2.1 (by decide)

/-! ## C18: Store when the message does not pack -/

/-- C18. When the record is not skipped as expired (`expires` is not before
the clock reading) and the wire codec rejects the message, `packRedisData`
returns the codec's error and no buffer, and `Store` returns that error and
leaves the backend state as it was, whatever the client: no backend call is
made. -/
theorem C18_store_pack_failure {σ Msg : Type} (client : Client σ) (codec : WireCodec Msg)
    (junk : Nat → Byte) (s : σ) (now now2 : Time) (key : String) (v : Msg)
    (stored expires : Time) (e : WireErr)
    (hpack : codec.Pack v = .error e) (hnow : ¬ expires.ns < now.ns) :
    packRedisData codec junk stored expires v = .error (Error.wire e) ∧
    RedisCache.Store client codec junk s now now2 key v stored expires
      = (s, some (Error.wire e)) := by
  have hp := packRedisData_error codec junk stored expires v e hpack
  have hafter : now.After expires = false := by
    simp only [Time.After, decide_eq_false_iff_not]
    exact hnow
  refine ⟨hp, ?_⟩
  simp only [RedisCache.Store, hafter, hp]
  rfl

/-- C18 at a record that expires in six seconds, with a codec that rejects
the message: the recording client has seen no command. -/
theorem C18_store_pack_failure_witness :
    packRedisData failingCodec (fun _ => 0) ⟨1000000000⟩ ⟨7000000000⟩ emptyMsg
      = .error (Error.wire ⟨"dns: bad rdata"⟩) ∧
    RedisCache.Store (traceClient (.error RedisErr.Nil) none) failingCodec (fun _ => 0) []
        ⟨1000000000⟩ ⟨1000000001⟩ "k" emptyMsg ⟨1000000000⟩ ⟨7000000000⟩
      = ([], some (Error.wire ⟨"dns: bad rdata"⟩)) :=
  C18_store_pack_failure (traceClient (.error RedisErr.Nil) none) failingCodec (fun _ => 0) []
    ⟨1000000000⟩ ⟨1000000001⟩ "k" emptyMsg ⟨1000000000⟩ ⟨7000000000⟩ ⟨"dns: bad rdata"⟩ rfl
    (by decide)

end redis_cache
